import Mathlib

/-!
# Tizen `ConnectivityUtils`: a shallow embedding and its checked properties

Source: `src/platform/Tizen/ConnectivityUtils.cpp`.

Conventions of the embedding

* Machine integers are `Nat` / `Int`; a narrowing `static_cast` is an explicit
  reduction modulo `2^w`.
* `double` values: in `GetWiFiRssi` every value involved (`level / 2.0 - 110.0`
  for a one-byte level) is exactly representable, so it is computed in `ℚ`.  In
  `ConvertFrequenceToFloat` and `GetWiFiChannelNumber` a `double` is an IEEE 754
  binary64 value, `Double`: a finite rational or an infinity, and every
  operation rounds its exact result to nearest, ties to even (`binary64`).
* The kernel is an explicit input: the value returned by `socket`, the value
  returned by `ioctl` together with the reply it stored, the list produced by
  `getifaddrs`.
* Every operation returns a `Ret`: the error code, the out-parameter after the
  call (its old value when the code did not assign it) and the system calls it
  issued, in order.
-/

set_option autoImplicit false

namespace ConnectivityUtils

/-! ## Error codes and system calls -/

/-- The `CHIP_ERROR` values that occur in `ConnectivityUtils.cpp`. -/
inductive CHIP_ERROR
  | CHIP_NO_ERROR
  | CHIP_ERROR_INVALID_ARGUMENT
  | CHIP_ERROR_OPEN_FAILED
  | CHIP_ERROR_READ_FAILED
  | CHIP_ERROR_BUFFER_TOO_SMALL
  | CHIP_ERROR_INVALID_INTEGER_VALUE
  | CHIP_ERROR_BAD_REQUEST
  deriving DecidableEq, Repr

open CHIP_ERROR

/-- The `ioctl` request codes used by the file. -/
inductive Request
  | SIOCGIWNAME
  | SIOCETHTOOL
  | SIOCGIFHWADDR
  | SIOCGIWFREQ
  | SIOCGIWSTATS
  | SIOCGIWRATE
  deriving DecidableEq, Repr

/-- One system call issued by an operation, with the value the kernel returned. -/
inductive SysCall
  | socket (ret : Int)
  | ioctl (request : Request) (ret : Int)
  | close (fd : Int)
  | getifaddrs (ret : Int)
  | freeifaddrs
  deriving DecidableEq, Repr

/-- Result of an operation: error code, out-parameter after the call, calls issued. -/
structure Ret (α : Type) where
  err : CHIP_ERROR
  out : α
  trace : List SysCall

/-- Number of descriptors a trace leaves open, starting from `n` open ones:
a `socket` call that returned a descriptor adds one, a `close` removes one. -/
def openAfter : Nat → List SysCall → Nat
  | n, [] => n
  | n, SysCall.socket ret :: rest => openAfter (if 0 ≤ ret then n + 1 else n) rest
  | n, SysCall.close _ :: rest => openAfter (n - 1) rest
  | n, _ :: rest => openAfter n rest

/-! ## Narrowing conversions -/

/-- The conversion `static_cast<uint8_t>` of an integer: reduction modulo 256. -/
def static_cast_uint8 (x : Int) : Nat := (x % 256).toNat

/-- The conversion `static_cast<uint16_t>` of an integer: reduction modulo 65536. -/
def static_cast_uint16 (x : Int) : Nat := (x % 65536).toNat

/-- The conversion `static_cast<int8_t>` of an integer: two's-complement wrap
into `[-128, 127]`. -/
def static_cast_int8 (x : Int) : Int := (x + 128) % 256 - 128

/-- Truncation toward zero, the integer part taken by a `double`-to-integer cast. -/
def truncate (x : ℚ) : Int := if 0 ≤ x then ⌊x⌋ else ⌈x⌉

/-! ## IEEE 754 binary64 arithmetic -/

/-- A `double` as far as the file can produce one: a finite value, given exactly
as a rational, or an infinity with its sign.  (No operation of the file yields
a NaN, and the sign of a zero is never observed.) -/
inductive Double
  | finite (value : ℚ)
  | infinite (negative : Bool)
  deriving DecidableEq

/-- Rounding of a rational to the nearest integer, ties to the even one. -/
def roundHalfEven (y : ℚ) : Int :=
  if y - ⌊y⌋ < 1 / 2 then ⌊y⌋
  else if 1 / 2 < y - ⌊y⌋ then ⌊y⌋ + 1
  else if ⌊y⌋ % 2 = 0 then ⌊y⌋
  else ⌊y⌋ + 1

/-- Exponent of the spacing of binary64 values around `x`: with
`2^k ≤ |x| < 2^(k+1)` it is `k - 52` (53 significant bits), and `-1074` for
every `|x|` below `2^(-1022)` (subnormal range). -/
def ulpExp (x : ℚ) : Int := max (Int.log 2 |x|) (-1022) - 52

/-- Spacing of binary64 values around `x`. -/
def ulp (x : ℚ) : ℚ := (2 : ℚ) ^ ulpExp x

/-- Magnitude of the binary64 value nearest to `x`, before the overflow test. -/
def roundedMagnitude (x : ℚ) : ℚ := (roundHalfEven (|x| / ulp x) : ℚ) * ulp x

/-- The binary64 result of an operation whose exact result is `x`: round to
nearest, ties to even; a rounded magnitude of `2^1024` or more is an infinity. -/
def binary64 (x : ℚ) : Double :=
  if (2 : ℚ) ^ (1024 : Nat) ≤ roundedMagnitude x then Double.infinite (decide (x < 0))
  else Double.finite (if x < 0 then -roundedMagnitude x else roundedMagnitude x)

/-- The product `a * c` in binary64, for a finite positive constant `c`. -/
def Double.mul (a : Double) (c : ℚ) : Double :=
  match a with
  | Double.finite p => binary64 (p * c)
  | Double.infinite negative => Double.infinite negative

/-- The quotient `a / c` in binary64, for a finite positive constant `c`. -/
def Double.div (a : Double) (c : ℚ) : Double :=
  match a with
  | Double.finite p => binary64 (p / c)
  | Double.infinite negative => Double.infinite negative

/-- The comparison `a <= c` for a finite constant `c`. -/
def Double.le (a : Double) (c : ℚ) : Bool :=
  match a with
  | Double.finite p => decide (p ≤ c)
  | Double.infinite negative => negative

/-- Whether a `double` is at least `z`: a finite value not below `z`, or the
positive infinity. -/
def Double.atLeast (a : Double) (z : ℚ) : Prop :=
  match a with
  | Double.finite p => z ≤ p
  | Double.infinite negative => negative = false

/-! ## Frequency / channel mapping -/

/-- Source `ConnectivityUtils::Map2400MHz` (lines 524-538). -/
def Map2400MHz (inChannel : Nat) : Nat :=
  if 1 ≤ inChannel ∧ inChannel ≤ 13 then
    static_cast_uint16 (2412 + (((inChannel : Int) - 1) * 5))
  else if inChannel = 14 then
    2484
  else
    0

/-- Source `ConnectivityUtils::Map5000MHz` (lines 540-675): the `switch` table. -/
def Map5000MHz (inChannel : Nat) : Nat :=
  match inChannel with
  | 183 => 4915
  | 184 => 4920
  | 185 => 4925
  | 187 => 4935
  | 188 => 4940
  | 189 => 4945
  | 192 => 4960
  | 196 => 4980
  | 7 => 5035
  | 8 => 5040
  | 9 => 5045
  | 11 => 5055
  | 12 => 5060
  | 16 => 5080
  | 34 => 5170
  | 36 => 5180
  | 38 => 5190
  | 40 => 5200
  | 42 => 5210
  | 44 => 5220
  | 46 => 5230
  | 48 => 5240
  | 52 => 5260
  | 56 => 5280
  | 60 => 5300
  | 64 => 5320
  | 100 => 5500
  | 104 => 5520
  | 108 => 5540
  | 112 => 5560
  | 116 => 5580
  | 120 => 5600
  | 124 => 5620
  | 128 => 5640
  | 132 => 5660
  | 136 => 5680
  | 140 => 5700
  | 149 => 5745
  | 153 => 5765
  | 157 => 5785
  | 161 => 5805
  | 165 => 5825
  | _ => 0

/-- Source `ConnectivityUtils::MapChannelToFrequency` (lines 45-59).  The two band
constants `kWiFi_BAND_2_4_GHZ` and `kWiFi_BAND_5_0_GHZ` are declared in a header
that is not part of the sources at hand, so they are parameters. -/
def MapChannelToFrequency (kWiFi_BAND_2_4_GHZ kWiFi_BAND_5_0_GHZ : Nat)
    (inBand inChannel : Nat) : Nat :=
  if inBand = kWiFi_BAND_2_4_GHZ then
    Map2400MHz inChannel
  else if inBand = kWiFi_BAND_5_0_GHZ then
    Map5000MHz inChannel
  else
    0

/-- Source `ConnectivityUtils::MapFrequencyToChannel` (lines 61-73).  The
arithmetic is done in `int`, the result is narrowed to `uint8_t`. -/
def MapFrequencyToChannel (frequency : Nat) : Nat :=
  if frequency < 2412 then
    0
  else if frequency < 2484 then
    static_cast_uint8 (Int.tdiv ((frequency : Int) - 2407) 5)
  else if frequency = 2484 then
    14
  else
    static_cast_uint8 (Int.tdiv (frequency : Int) 5 - 1000)

/-! ## Wireless metrics -/

/-- Flag `IW_QUAL_DBM` of `linux/wireless.h`: the level is in dBm. -/
def IW_QUAL_DBM : Nat := 0x08

/-- Flag `IW_QUAL_LEVEL_INVALID` of `linux/wireless.h`. -/
def IW_QUAL_LEVEL_INVALID : Nat := 0x20

/-- Flag `IW_QUAL_RCPI` of `linux/wireless.h`: the level is RCPI-encoded. -/
def IW_QUAL_RCPI : Nat := 0x80

/-- Value of `INT8_MAX`. -/
def INT8_MAX : Int := 127

/-- Value of `UINT16_MAX`. -/
def UINT16_MAX : Int := 65535

/-- The kernel structure `iw_quality`; all four fields are unsigned bytes. -/
structure iw_quality where
  qual : Nat
  level : Nat
  noise : Nat
  updated : Nat
  deriving DecidableEq, Repr

/-- The part of the kernel structure `iw_statistics` the file reads:
the quality sample and the missed-beacon counter `miss.beacon`. -/
structure iw_statistics where
  qual : iw_quality
  miss_beacon : Nat
  deriving DecidableEq, Repr

/-- The kernel structure `iw_freq`: mantissa `m` (signed 32 bit) and exponent `e`
(signed 16 bit). -/
structure iw_freq where
  m : Int
  e : Int
  deriving DecidableEq, Repr

/-- Loop of `ConvertFrequenceToFloat`: `n` remaining passes of `result *= 10`,
each a binary64 multiplication. -/
def ConvertFrequenceToFloat.loop : Nat → Double → Double
  | 0, result => result
  | n + 1, result => ConvertFrequenceToFloat.loop n (result.mul 10)

/-- Source `ConnectivityUtils::ConvertFrequenceToFloat` (lines 677-685).
`(double) in->m` is the binary64 value of the mantissa (exact for a 32-bit
mantissa).  The loop `for (int i = 0; i < in->e; i++)` runs `e` times when `e`
is positive and not at all otherwise. -/
def ConvertFrequenceToFloat (freq : iw_freq) : Double :=
  ConvertFrequenceToFloat.loop freq.e.toNat (binary64 (freq.m : ℚ))

/-- Source `ConnectivityUtils::GetWiFiParameter` (lines 687-698), as a function of
the value `ioctl` returned. -/
def GetWiFiParameter (ioctlRet : Int) : CHIP_ERROR :=
  if ioctlRet < 0 then CHIP_ERROR_BAD_REQUEST else CHIP_NO_ERROR

/-- Source `ConnectivityUtils::GetWiFiStats` (lines 700-709): the request
`SIOCGIWSTATS` passed to `GetWiFiParameter`. -/
def GetWiFiStats (ioctlRet : Int) : CHIP_ERROR :=
  GetWiFiParameter ioctlRet

/-- The conversion `static_cast<uint16_t>` of a `double`: the integer part.  The
language leaves the conversion undefined when the integer part is outside
`0..65535`, which the code only reaches for a negative frequency; the model then
reduces modulo 65536, and gives 0 for an infinity. -/
def Double.toUInt16 (a : Double) : Nat :=
  match a with
  | Double.finite p => static_cast_uint16 (truncate p)
  | Double.infinite _ => 0

/-- Source `ConnectivityUtils::GetWiFiChannelNumber` (lines 254-281).
`socketRet`, `ioctlRet` and `wrq_freq` are what the kernel returned;
`channelNumber` is the out-parameter before the call.  `VerifyOrReturnError`
returns at once, so that path issues no `close`.  `freq / 1000000` is a
binary64 division, computed once here and used by the test and by the cast. -/
def GetWiFiChannelNumber (socketRet ioctlRet : Int) (wrq_freq : iw_freq)
    (channelNumber : Nat) : Ret Nat :=
  let skfd := socketRet
  if skfd < 0 then
    ⟨CHIP_ERROR_OPEN_FAILED, channelNumber, [SysCall.socket socketRet]⟩
  else
    let err := GetWiFiParameter ioctlRet
    let calls := [SysCall.socket socketRet, SysCall.ioctl Request.SIOCGIWFREQ ioctlRet]
    if err = CHIP_NO_ERROR then
      let freq := ConvertFrequenceToFloat wrq_freq
      if ¬ ((freq.div 1000000).le (UINT16_MAX : ℚ) = true) then
        ⟨CHIP_ERROR_INVALID_INTEGER_VALUE, channelNumber, calls⟩
      else
        ⟨CHIP_NO_ERROR,
          MapFrequencyToChannel (freq.div 1000000).toUInt16,
          calls ++ [SysCall.close skfd]⟩
    else
      ⟨err, channelNumber, calls ++ [SysCall.close skfd]⟩

/-- Source `ConnectivityUtils::GetWiFiRssi` (lines 283-344).  `stats` is the reply
stored by the statistics query, `rssi` the out-parameter before the call.  The
variable `err` holds the result of `GetWiFiStats` from line 295 on. -/
def GetWiFiRssi (socketRet ioctlRet : Int) (stats : iw_statistics) (rssi : Int) : Ret Int :=
  let skfd := socketRet
  if skfd < 0 then
    ⟨CHIP_ERROR_OPEN_FAILED, rssi, [SysCall.socket socketRet]⟩
  else
    let err := GetWiFiStats ioctlRet
    let calls := [SysCall.socket socketRet, SysCall.ioctl Request.SIOCGIWSTATS ioctlRet]
    if err = CHIP_NO_ERROR then
      let qual := stats.qual
      if qual.updated &&& IW_QUAL_RCPI ≠ 0 then
        if ¬ (qual.updated &&& IW_QUAL_LEVEL_INVALID ≠ 0) then
          let rcpilevel : ℚ := (qual.level : ℚ) / 2 - 110
          if ¬ (rcpilevel ≤ (INT8_MAX : ℚ)) then
            ⟨CHIP_ERROR_INVALID_INTEGER_VALUE, rssi, calls⟩
          else
            ⟨CHIP_NO_ERROR, static_cast_int8 (truncate rcpilevel), calls ++ [SysCall.close skfd]⟩
        else
          ⟨err, rssi, calls ++ [SysCall.close skfd]⟩
      else if qual.updated &&& IW_QUAL_DBM ≠ 0 then
        if ¬ (qual.updated &&& IW_QUAL_LEVEL_INVALID ≠ 0) then
          let dblevel : Int := if qual.level ≥ 64 then (qual.level : Int) - 0x100 else qual.level
          if ¬ (dblevel ≤ INT8_MAX) then
            ⟨CHIP_ERROR_INVALID_INTEGER_VALUE, rssi, calls⟩
          else
            ⟨CHIP_NO_ERROR, static_cast_int8 dblevel, calls ++ [SysCall.close skfd]⟩
        else
          ⟨err, rssi, calls ++ [SysCall.close skfd]⟩
      else
        if ¬ (qual.updated &&& IW_QUAL_LEVEL_INVALID ≠ 0) then
          if ¬ ((qual.level : Int) ≤ INT8_MAX) then
            ⟨CHIP_ERROR_INVALID_INTEGER_VALUE, rssi, calls⟩
          else
            ⟨CHIP_NO_ERROR, static_cast_int8 qual.level, calls ++ [SysCall.close skfd]⟩
        else
          ⟨err, rssi, calls ++ [SysCall.close skfd]⟩
    else
      ⟨err, rssi, calls ++ [SysCall.close skfd]⟩

/-- Source `ConnectivityUtils::GetWiFiBeaconLostCount` (lines 346-366).  Here the
result of `GetWiFiStats` is only compared, `err` keeps its initial value. -/
def GetWiFiBeaconLostCount (socketRet ioctlRet : Int) (stats : iw_statistics)
    (beaconLostCount : Nat) : Ret Nat :=
  let skfd := socketRet
  if skfd < 0 then
    ⟨CHIP_ERROR_OPEN_FAILED, beaconLostCount, [SysCall.socket socketRet]⟩
  else
    let calls := [SysCall.socket socketRet, SysCall.ioctl Request.SIOCGIWSTATS ioctlRet]
    if GetWiFiStats ioctlRet = CHIP_NO_ERROR then
      ⟨CHIP_NO_ERROR, stats.miss_beacon, calls ++ [SysCall.close skfd]⟩
    else
      ⟨CHIP_ERROR_READ_FAILED, beaconLostCount, calls ++ [SysCall.close skfd]⟩

/-- Source `ConnectivityUtils::GetWiFiCurrentMaxRate` (lines 368-392).
`bitrate_value` is the signed 32-bit field `wrq.u.bitrate.value`, converted to
`uint64_t` by the assignment. -/
def GetWiFiCurrentMaxRate (socketRet ioctlRet : Int) (bitrate_value : Int)
    (currentMaxRate : Nat) : Ret Nat :=
  let skfd := socketRet
  if skfd < 0 then
    ⟨CHIP_ERROR_OPEN_FAILED, currentMaxRate, [SysCall.socket socketRet]⟩
  else
    let err := GetWiFiParameter ioctlRet
    let calls := [SysCall.socket socketRet, SysCall.ioctl Request.SIOCGIWRATE ioctlRet]
    if err = CHIP_NO_ERROR then
      ⟨CHIP_NO_ERROR, (bitrate_value % 2 ^ 64).toNat, calls ++ [SysCall.close skfd]⟩
    else
      ⟨err, currentMaxRate, calls ++ [SysCall.close skfd]⟩

/-! ## Ethernet metrics -/

/-- The members of `PHYRateEnum` the file assigns, under the names it uses. -/
inductive PHYRateEnum
  | EMBER_ZCL_PHY_RATE_ENUM_RATE10_M
  | EMBER_ZCL_PHY_RATE_ENUM_RATE100_M
  | EMBER_ZCL_PHY_RATE_ENUM_RATE1_G
  | EMBER_ZCL_PHY_RATE_ENUM_RATE2_5_G
  | EMBER_ZCL_PHY_RATE_ENUM_RATE5_G
  | EMBER_ZCL_PHY_RATE_ENUM_RATE10_G
  | EMBER_ZCL_PHY_RATE_ENUM_RATE40_G
  | EMBER_ZCL_PHY_RATE_ENUM_RATE100_G
  | EMBER_ZCL_PHY_RATE_ENUM_RATE200_G
  | EMBER_ZCL_PHY_RATE_ENUM_RATE400_G
  deriving DecidableEq, Repr

open PHYRateEnum

/-- The fields of the kernel structure `ethtool_cmd` the file reads: `speed` and
`speed_hi` are unsigned 16-bit, `duplex` is an unsigned byte. -/
structure ethtool_cmd where
  speed : Nat
  duplex : Nat
  speed_hi : Nat
  deriving DecidableEq, Repr

/-- Source `ConnectivityUtils::GetEthPHYRate` (lines 420-488).  `ecmd` is the reply
the `SIOCETHTOOL` query stored, `pHYRate` the out-parameter before the call.  The
`switch` is written as a chain of equality tests in the order of its cases. -/
def GetEthPHYRate (socketRet ioctlRet : Int) (ecmd : ethtool_cmd)
    (pHYRate : PHYRateEnum) : Ret PHYRateEnum :=
  let skfd := socketRet
  if skfd < 0 then
    ⟨CHIP_ERROR_OPEN_FAILED, pHYRate, [SysCall.socket socketRet]⟩
  else if ioctlRet = -1 then
    ⟨CHIP_ERROR_READ_FAILED, pHYRate,
      [SysCall.socket socketRet, SysCall.ioctl Request.SIOCETHTOOL ioctlRet, SysCall.close skfd]⟩
  else
    let speed : Nat := ((ecmd.speed_hi <<< 16) ||| ecmd.speed) % 2 ^ 32
    let calls :=
      [SysCall.socket socketRet, SysCall.ioctl Request.SIOCETHTOOL ioctlRet, SysCall.close skfd]
    if speed = 10 then ⟨CHIP_NO_ERROR, EMBER_ZCL_PHY_RATE_ENUM_RATE10_M, calls⟩
    else if speed = 100 then ⟨CHIP_NO_ERROR, EMBER_ZCL_PHY_RATE_ENUM_RATE100_M, calls⟩
    else if speed = 1000 then ⟨CHIP_NO_ERROR, EMBER_ZCL_PHY_RATE_ENUM_RATE1_G, calls⟩
    else if speed = 25000 then ⟨CHIP_NO_ERROR, EMBER_ZCL_PHY_RATE_ENUM_RATE2_5_G, calls⟩
    else if speed = 5000 then ⟨CHIP_NO_ERROR, EMBER_ZCL_PHY_RATE_ENUM_RATE5_G, calls⟩
    else if speed = 10000 then ⟨CHIP_NO_ERROR, EMBER_ZCL_PHY_RATE_ENUM_RATE10_G, calls⟩
    else if speed = 40000 then ⟨CHIP_NO_ERROR, EMBER_ZCL_PHY_RATE_ENUM_RATE40_G, calls⟩
    else if speed = 100000 then ⟨CHIP_NO_ERROR, EMBER_ZCL_PHY_RATE_ENUM_RATE100_G, calls⟩
    else if speed = 200000 then ⟨CHIP_NO_ERROR, EMBER_ZCL_PHY_RATE_ENUM_RATE200_G, calls⟩
    else if speed = 400000 then ⟨CHIP_NO_ERROR, EMBER_ZCL_PHY_RATE_ENUM_RATE400_G, calls⟩
    else ⟨CHIP_ERROR_READ_FAILED, pHYRate, calls⟩

/-- Value of `DUPLEX_FULL` in `linux/ethtool.h`. -/
def DUPLEX_FULL : Nat := 0x01

/-- Source `ConnectivityUtils::GetEthFullDuplex` (lines 490-522).  `ecmd` is the
reply the `SIOCETHTOOL` query stored, `fullDuplex` the out-parameter before the
call. -/
def GetEthFullDuplex (socketRet ioctlRet : Int) (ecmd : ethtool_cmd)
    (fullDuplex : Bool) : Ret Bool :=
  let skfd := socketRet
  if skfd < 0 then
    ⟨CHIP_ERROR_OPEN_FAILED, fullDuplex, [SysCall.socket socketRet]⟩
  else
    let calls :=
      [SysCall.socket socketRet, SysCall.ioctl Request.SIOCETHTOOL ioctlRet, SysCall.close skfd]
    if ioctlRet = -1 then
      ⟨CHIP_ERROR_READ_FAILED, fullDuplex, calls⟩
    else
      ⟨CHIP_NO_ERROR, decide (ecmd.duplex = DUPLEX_FULL), calls⟩

/-! ## Interface classification -/

/-- The members of `InterfaceTypeEnum` the file uses. -/
inductive InterfaceTypeEnum
  | kUnspecified
  | kWiFi
  | kEthernet
  deriving DecidableEq, Repr

/-- The test `strncmp(s, lit, n) == 0` for a literal `lit` of exactly `n`
characters: the first `n` characters of `s` are those of `lit`. -/
def strncmp_eq (s lit : List Char) (n : Nat) : Bool :=
  decide (s.take n = lit)

/-- Source `ConnectivityUtils::GetInterfaceConnectionType` (lines 75-109), with the
calls it issued.  `socketRet` is the value of `socket`, `iwnameRet` the value of
the `SIOCGIWNAME` query and `ethtoolRet` the value of the `SIOCETHTOOL` query,
which is issued only on the branch that reaches it. -/
def GetInterfaceConnectionType (ifname : List Char) (socketRet iwnameRet ethtoolRet : Int) :
    InterfaceTypeEnum × List SysCall :=
  let sock := socketRet
  if sock = -1 then
    (InterfaceTypeEnum.kUnspecified, [SysCall.socket socketRet])
  else if iwnameRet ≠ -1 then
    (InterfaceTypeEnum.kWiFi,
      [SysCall.socket socketRet, SysCall.ioctl Request.SIOCGIWNAME iwnameRet, SysCall.close sock])
  else if strncmp_eq ifname ['e', 'n'] 2 || strncmp_eq ifname ['e', 't', 'h'] 3 then
    if ethtoolRet ≠ -1 then
      (InterfaceTypeEnum.kEthernet,
        [SysCall.socket socketRet, SysCall.ioctl Request.SIOCGIWNAME iwnameRet,
          SysCall.ioctl Request.SIOCETHTOOL ethtoolRet, SysCall.close sock])
    else
      (InterfaceTypeEnum.kUnspecified,
        [SysCall.socket socketRet, SysCall.ioctl Request.SIOCGIWNAME iwnameRet,
          SysCall.ioctl Request.SIOCETHTOOL ethtoolRet, SysCall.close sock])
  else
    (InterfaceTypeEnum.kUnspecified,
      [SysCall.socket socketRet, SysCall.ioctl Request.SIOCGIWNAME iwnameRet, SysCall.close sock])

/-! ## Hardware address -/

/-- The call `memset(s, c, n)` on a byte region addressed by offset. -/
def memset (s : Nat → Nat) (c n : Nat) : Nat → Nat :=
  fun i => if i < n then c else s i

/-- The call `memcpy(dest, src, n)` on byte regions addressed by offset. -/
def memcpy (dest src : Nat → Nat) (n : Nat) : Nat → Nat :=
  fun i => if i < n then src i else dest i

/-- Source `ConnectivityUtils::GetInterfaceHardwareAddrs` (lines 111-142).
`ifname` is the C string without its terminator, so `ifname[0] == 0` is
`ifname = []`; `sa_data` is `req.ifr_ifru.ifru_hwaddr.sa_data` after the query;
`buf` is the caller memory, addressed by offset, with declared size `bufSize`.
The size check returns at once and issues no `close`. -/
def GetInterfaceHardwareAddrs (ifname : List Char) (socketRet ioctlRet : Int)
    (sa_data : Nat → Nat) (buf : Nat → Nat) (bufSize : Nat) : Ret (Nat → Nat) :=
  if ifname = [] then
    ⟨CHIP_ERROR_INVALID_ARGUMENT, buf, []⟩
  else
    let skfd := socketRet
    if skfd < 0 then
      ⟨CHIP_ERROR_OPEN_FAILED, buf, [SysCall.socket socketRet]⟩
    else
      let calls := [SysCall.socket socketRet, SysCall.ioctl Request.SIOCGIFHWADDR ioctlRet]
      if ioctlRet ≠ -1 then
        if ¬ (bufSize ≥ 6) then
          ⟨CHIP_ERROR_BUFFER_TOO_SMALL, buf, calls⟩
        else
          ⟨CHIP_NO_ERROR, memcpy (memset buf 0 bufSize) sa_data 6, calls ++ [SysCall.close skfd]⟩
      else
        ⟨CHIP_ERROR_READ_FAILED, buf, calls ++ [SysCall.close skfd]⟩

/-! ## Address enumeration -/

/-- Modelled from the spec: the constant `kMaxIPv4AddrSize` is declared in a header
that is not part of the sources at hand; the data model fixes an IPv4 address at
4 bytes. -/
def kMaxIPv4AddrSize : Nat := 4

/-- Modelled from the spec: the constant `kMaxIPv6AddrSize` is declared in a header
that is not part of the sources at hand; the data model fixes an IPv6 address at
16 bytes. -/
def kMaxIPv6AddrSize : Nat := 16

/-- A `ByteSpan` into one of the address buffers of a record: `data` is the row of
the buffer the span starts at (`none` for a null span), `size` its length. -/
structure ByteSpan where
  data : Option Nat
  size : Nat
  deriving DecidableEq, Repr

/-- The address part of `NetworkInterface`.  A buffer is addressed by row and by
byte offset in the row; rows are not bounded in the model, so that a store to a
row outside the declared array shows up as a change of that row. -/
structure NetworkInterface where
  Ipv4AddressesBuffer : Nat → Nat → Nat
  Ipv4AddressSpans : Nat → ByteSpan
  Ipv6AddressesBuffer : Nat → Nat → Nat
  Ipv6AddressSpans : Nat → ByteSpan

/-- A socket address as the file reads it: `sa_family` is `AF_INET` with the bytes
of `sin_addr`, `AF_INET6` with the bytes of `sin6_addr`, or another family. -/
inductive sockaddr
  | sockaddr_in (sin_addr : Nat → Nat)
  | sockaddr_in6 (sin6_addr : Nat → Nat)
  | other (sa_family : Nat)

/-- One node of the list produced by `getifaddrs`; `ifa_addr` may be null. -/
structure ifaddrs where
  ifa_name : List Char
  ifa_addr : Option sockaddr

/-- Out-parameters of an address enumeration after the call: the `size` reference,
the record behind `ifp`, and the rows stored to, in order. -/
structure AddrsOut where
  size : Nat
  ifp : NetworkInterface
  written : List Nat

/-- Lines 164-165: store an IPv4 address into row `index` and point the span at it. -/
def storeIPv4 (ifp : NetworkInterface) (index : Nat) (addPtr : Nat → Nat) : NetworkInterface :=
  { ifp with
    Ipv4AddressesBuffer :=
      Function.update ifp.Ipv4AddressesBuffer index
        (memcpy (ifp.Ipv4AddressesBuffer index) addPtr kMaxIPv4AddrSize)
    Ipv4AddressSpans :=
      Function.update ifp.Ipv4AddressSpans index ⟨some index, kMaxIPv4AddrSize⟩ }

/-- Lines 206-207: store an IPv6 address into row `index` and point the span at it. -/
def storeIPv6 (ifp : NetworkInterface) (index : Nat) (addPtr : Nat → Nat) : NetworkInterface :=
  { ifp with
    Ipv6AddressesBuffer :=
      Function.update ifp.Ipv6AddressesBuffer index
        (memcpy (ifp.Ipv6AddressesBuffer index) addPtr kMaxIPv6AddrSize)
    Ipv6AddressSpans :=
      Function.update ifp.Ipv6AddressSpans index ⟨some index, kMaxIPv6AddrSize⟩ }

/-- The `for` loop of `GetInterfaceIPv4Addrs` (lines 156-174) from the node `ifa`
on.  `index` is a `uint8_t`, so `index++` wraps at 256.  Returns the final
`index`, the record and the rows stored to. -/
def GetInterfaceIPv4Addrs.loop (kMaxIPv4AddrCount : Nat) (ifname : List Char) :
    List ifaddrs → Nat → NetworkInterface → List Nat → Nat × NetworkInterface × List Nat
  | [], index, ifp, written => (index, ifp, written)
  | ifa :: ifa_next, index, ifp, written =>
    match ifa.ifa_addr with
    | some (sockaddr.sockaddr_in sin_addr) =>
      if ifname = ifa.ifa_name then
        let ifp1 := storeIPv4 ifp index sin_addr
        let index1 := (index + 1) % 256
        if index1 ≥ kMaxIPv4AddrCount then
          (index1, ifp1, written ++ [index])
        else
          GetInterfaceIPv4Addrs.loop kMaxIPv4AddrCount ifname ifa_next index1 ifp1
            (written ++ [index])
      else
        GetInterfaceIPv4Addrs.loop kMaxIPv4AddrCount ifname ifa_next index ifp written
    | _ => GetInterfaceIPv4Addrs.loop kMaxIPv4AddrCount ifname ifa_next index ifp written

/-- Source `ConnectivityUtils::GetInterfaceIPv4Addrs` (lines 144-184).
`kMaxIPv4AddrCount` is declared in a header that is not part of the sources at
hand, so it is a parameter.  `getifaddrsRet` and `ifaddr` are what `getifaddrs`
returned; `size` and `ifp` are the out-parameters before the call. -/
def GetInterfaceIPv4Addrs (kMaxIPv4AddrCount : Nat) (ifname : List Char)
    (getifaddrsRet : Int) (ifaddr : List ifaddrs) (size : Nat) (ifp : NetworkInterface) :
    Ret AddrsOut :=
  if getifaddrsRet = -1 then
    ⟨CHIP_ERROR_READ_FAILED, ⟨size, ifp, []⟩, [SysCall.getifaddrs getifaddrsRet]⟩
  else
    let r := GetInterfaceIPv4Addrs.loop kMaxIPv4AddrCount ifname ifaddr 0 ifp []
    let index := r.1
    if index > 0 then
      ⟨CHIP_NO_ERROR, ⟨index, r.2.1, r.2.2⟩,
        [SysCall.getifaddrs getifaddrsRet, SysCall.freeifaddrs]⟩
    else
      ⟨CHIP_ERROR_READ_FAILED, ⟨size, r.2.1, r.2.2⟩,
        [SysCall.getifaddrs getifaddrsRet, SysCall.freeifaddrs]⟩

/-- The `for` loop of `GetInterfaceIPv6Addrs` (lines 198-216) from the node `ifa`
on.  `index` is a `uint8_t`, so `index++` wraps at 256.  Returns the final
`index`, the record and the rows stored to. -/
def GetInterfaceIPv6Addrs.loop (kMaxIPv6AddrCount : Nat) (ifname : List Char) :
    List ifaddrs → Nat → NetworkInterface → List Nat → Nat × NetworkInterface × List Nat
  | [], index, ifp, written => (index, ifp, written)
  | ifa :: ifa_next, index, ifp, written =>
    match ifa.ifa_addr with
    | some (sockaddr.sockaddr_in6 sin6_addr) =>
      if ifname = ifa.ifa_name then
        let ifp1 := storeIPv6 ifp index sin6_addr
        let index1 := (index + 1) % 256
        if index1 ≥ kMaxIPv6AddrCount then
          (index1, ifp1, written ++ [index])
        else
          GetInterfaceIPv6Addrs.loop kMaxIPv6AddrCount ifname ifa_next index1 ifp1
            (written ++ [index])
      else
        GetInterfaceIPv6Addrs.loop kMaxIPv6AddrCount ifname ifa_next index ifp written
    | _ => GetInterfaceIPv6Addrs.loop kMaxIPv6AddrCount ifname ifa_next index ifp written

/-- Source `ConnectivityUtils::GetInterfaceIPv6Addrs` (lines 186-226).
`kMaxIPv6AddrCount` is declared in a header that is not part of the sources at
hand, so it is a parameter.  `getifaddrsRet` and `ifaddr` are what `getifaddrs`
returned; `size` and `ifp` are the out-parameters before the call. -/
def GetInterfaceIPv6Addrs (kMaxIPv6AddrCount : Nat) (ifname : List Char)
    (getifaddrsRet : Int) (ifaddr : List ifaddrs) (size : Nat) (ifp : NetworkInterface) :
    Ret AddrsOut :=
  if getifaddrsRet = -1 then
    ⟨CHIP_ERROR_READ_FAILED, ⟨size, ifp, []⟩, [SysCall.getifaddrs getifaddrsRet]⟩
  else
    let r := GetInterfaceIPv6Addrs.loop kMaxIPv6AddrCount ifname ifaddr 0 ifp []
    let index := r.1
    if index > 0 then
      ⟨CHIP_NO_ERROR, ⟨index, r.2.1, r.2.2⟩,
        [SysCall.getifaddrs getifaddrsRet, SysCall.freeifaddrs]⟩
    else
      ⟨CHIP_ERROR_READ_FAILED, ⟨size, r.2.1, r.2.2⟩,
        [SysCall.getifaddrs getifaddrsRet, SysCall.freeifaddrs]⟩

/-! ### Reference notions for the address enumeration -/

/-- The IPv4 address of a node when the node has a non-null `AF_INET` address and
its name is `ifname`. -/
def matchIPv4 (ifname : List Char) (ifa : ifaddrs) : Option (Nat → Nat) :=
  match ifa.ifa_addr with
  | some (sockaddr.sockaddr_in sin_addr) => if ifname = ifa.ifa_name then some sin_addr else none
  | _ => none

/-- The IPv6 address of a node when the node has a non-null `AF_INET6` address and
its name is `ifname`. -/
def matchIPv6 (ifname : List Char) (ifa : ifaddrs) : Option (Nat → Nat) :=
  match ifa.ifa_addr with
  | some (sockaddr.sockaddr_in6 sin6_addr) => if ifname = ifa.ifa_name then some sin6_addr else none
  | _ => none

/-- The IPv4 addresses of interface `ifname` in a system address list, in list order. -/
def matchingIPv4 (ifname : List Char) (ifaddr : List ifaddrs) : List (Nat → Nat) :=
  ifaddr.filterMap (matchIPv4 ifname)

/-- The IPv6 addresses of interface `ifname` in a system address list, in list order. -/
def matchingIPv6 (ifname : List Char) (ifaddr : List ifaddrs) : List (Nat → Nat) :=
  ifaddr.filterMap (matchIPv6 ifname)

/-- A record with every byte zero and every span null. -/
def emptyRecord : NetworkInterface :=
  ⟨fun _ _ => 0, fun _ => ⟨none, 0⟩, fun _ _ => 0, fun _ => ⟨none, 0⟩⟩

/-- A node of interface `wlan0` carrying the IPv4 address `10.0.0.b`. -/
def wlan0IPv4 (b : Nat) : ifaddrs :=
  ⟨['w', 'l', 'a', 'n', '0'], some (sockaddr.sockaddr_in (fun j => if j = 3 then b else if j = 0 then 10 else 0))⟩

/-- A node of interface `wlan0` carrying an IPv6 address whose last byte is `b`. -/
def wlan0IPv6 (b : Nat) : ifaddrs :=
  ⟨['w', 'l', 'a', 'n', '0'], some (sockaddr.sockaddr_in6 (fun j => if j = 15 then b else if j = 0 then 254 else 0))⟩

/-- Stores of the addresses `as` into the rows `index`, `index + 1`, ... one after
the other, with no bound: what the enumeration loop amounts to while the row
counter stays below the maximum. -/
def storeAll (store : NetworkInterface → Nat → (Nat → Nat) → NetworkInterface) :
    List (Nat → Nat) → Nat → NetworkInterface → List Nat → Nat × NetworkInterface × List Nat
  | [], index, ifp, written => (index, ifp, written)
  | a :: as, index, ifp, written =>
    storeAll store as (index + 1) (store ifp index a) (written ++ [index])

/-! ### Reference notions for the frequency / channel mapping -/

/-- The 5 GHz channel plan as (channel, frequency in MHz) pairs: the reference
table against which `Map5000MHz` is compared. -/
def table5GHz : List (Nat × Nat) :=
  [(183, 4915), (184, 4920), (185, 4925), (187, 4935), (188, 4940), (189, 4945),
   (192, 4960), (196, 4980), (7, 5035), (8, 5040), (9, 5045), (11, 5055), (12, 5060),
   (16, 5080), (34, 5170), (36, 5180), (38, 5190), (40, 5200), (42, 5210), (44, 5220),
   (46, 5230), (48, 5240), (52, 5260), (56, 5280), (60, 5300), (64, 5320), (100, 5500),
   (104, 5520), (108, 5540), (112, 5560), (116, 5580), (120, 5600), (124, 5620),
   (128, 5640), (132, 5660), (136, 5680), (140, 5700), (149, 5745), (153, 5765),
   (157, 5785), (161, 5805), (165, 5825)]

/-- The channels listed in the 5 GHz table. -/
def channels5GHz : List Nat := table5GHz.map Prod.fst

/-- The reference mapping from (band, channel) to MHz, in the words of the
specification: in the 2.4 GHz band channels 1..13 give `2412 + (channel-1)*5`,
channel 14 gives 2484 and every other channel 0; in the 5 GHz band a listed
channel gives its table frequency and every other channel 0; any other band
value gives 0. -/
def referenceChannelToFrequency (band_2_4 band_5_0 : Nat) (band channel : Nat) : Nat :=
  if band = band_2_4 then
    if 1 ≤ channel ∧ channel ≤ 13 then 2412 + (channel - 1) * 5
    else if channel = 14 then 2484
    else 0
  else if band = band_5_0 then
    (table5GHz.lookup channel).getD 0
  else
    0

/-! ## Theorems -/

/-- C4 (as the claim states it, refuted): at 4915 MHz the function does not return
the integer `4915/5 - 1000 = -17`; it returns 239. -/
theorem C4_counterexample :
    2485 ≤ 4915 ∧ 4915 ≤ 65535 ∧ MapFrequencyToChannel 4915 = 239 ∧
      ((MapFrequencyToChannel 4915 : Nat) : Int) ≠ (4915 : Int) / 5 - 1000 := by
  decide

/-- C4 (amended): for every 16-bit frequency above 2484 MHz the function returns
`f/5 - 1000` reduced modulo 256 into `0..255`, and that is the integer
`f/5 - 1000` itself exactly on `5000 ≤ f ≤ 6279`. -/
theorem C4_MapFrequencyToChannel_above_2484 (f : Nat) (h1 : 2485 ≤ f) (h2 : f ≤ 65535) :
    ((MapFrequencyToChannel f : Nat) : Int) = ((f : Int) / 5 - 1000) % 256 ∧
      (((MapFrequencyToChannel f : Nat) : Int) = (f : Int) / 5 - 1000 ↔
        (5000 ≤ f ∧ f ≤ 6279)) := by
  have e : MapFrequencyToChannel f = static_cast_uint8 (Int.tdiv (f : Int) 5 - 1000) := by
    unfold MapFrequencyToChannel
    rw [if_neg (by omega), if_neg (by omega), if_neg (by omega)]
  have t : Int.tdiv (f : Int) 5 = (f : Int) / 5 := by
    rw [Int.tdiv_eq_ediv] <;> omega
  rw [e, t]
  unfold static_cast_uint8
  have hnn : 0 ≤ ((f : Int) / 5 - 1000) % 256 := Int.emod_nonneg _ (by decide)
  rw [Int.toNat_of_nonneg hnn]
  refine ⟨rfl, ?_⟩
  constructor
  · intro h
    omega
  · intro h
    omega

/-- C4 witness: 5180 MHz. -/
theorem C4_MapFrequencyToChannel_above_2484_witness :
    ((MapFrequencyToChannel 5180 : Nat) : Int) = ((5180 : Int) / 5 - 1000) % 256 ∧
      (((MapFrequencyToChannel 5180 : Nat) : Int) = (5180 : Int) / 5 - 1000 ↔
        (5000 ≤ 5180 ∧ 5180 ≤ 6279)) :=
  C4_MapFrequencyToChannel_above_2484 5180 (by decide) (by decide)

/-- C5: 2.4 GHz round trip.  For every channel `1 ≤ c ≤ 14`, mapping the channel to
its frequency in the 2.4 GHz band and back returns `c`; channels 1..13 use the
formula `2412 + (c-1)*5`, channel 14 the fixed 2484 MHz. -/
theorem C5_roundtrip_2_4_GHz (k24 k50 c : Nat) (h1 : 1 ≤ c) (h2 : c ≤ 14) :
    MapFrequencyToChannel (MapChannelToFrequency k24 k50 k24 c) = c ∧
      (c ≤ 13 → MapChannelToFrequency k24 k50 k24 c = 2412 + (c - 1) * 5) ∧
      (c = 14 → MapChannelToFrequency k24 k50 k24 c = 2484) := by
  have hc : c ∈ List.range 15 := by
    simp only [List.mem_range]
    omega
  have key : ∀ d ∈ List.range 15, 1 ≤ d →
      MapFrequencyToChannel (Map2400MHz d) = d ∧
        (d ≤ 13 → Map2400MHz d = 2412 + (d - 1) * 5) ∧ (d = 14 → Map2400MHz d = 2484) := by
    decide
  have e : MapChannelToFrequency k24 k50 k24 c = Map2400MHz c := by
    unfold MapChannelToFrequency
    rw [if_pos rfl]
  rw [e]
  exact key c hc h1

/-- C5 witness: channel 14 in a band numbering 2400 / 5000. -/
theorem C5_roundtrip_2_4_GHz_witness :
    MapFrequencyToChannel (MapChannelToFrequency 2400 5000 2400 14) = 14 ∧
      (14 ≤ 13 → MapChannelToFrequency 2400 5000 2400 14 = 2412 + (14 - 1) * 5) ∧
      (14 = 14 → MapChannelToFrequency 2400 5000 2400 14 = 2484) :=
  C5_roundtrip_2_4_GHz 2400 5000 14 (by decide) (by decide)


/-! ### Helper lemmas -/

/-- C1 (evaluation at the failing input): with the statistics obtained and the
level-invalid bit set, in each of the three encodings the call returns
`CHIP_NO_ERROR`, not `CHIP_ERROR_READ_FAILED`, and leaves `rssi` (here 7) as it was. -/
theorem C1_level_invalid_returns_no_error :
    (GetWiFiRssi 3 0 ⟨⟨0, 200, 0, 0x20⟩, 0⟩ 7).err = CHIP_NO_ERROR ∧
      (GetWiFiRssi 3 0 ⟨⟨0, 200, 0, 0x20⟩, 0⟩ 7).out = 7 ∧
      (GetWiFiRssi 3 0 ⟨⟨0, 200, 0, 0x28⟩, 0⟩ 7).err = CHIP_NO_ERROR ∧
      (GetWiFiRssi 3 0 ⟨⟨0, 200, 0, 0x28⟩, 0⟩ 7).out = 7 ∧
      (GetWiFiRssi 3 0 ⟨⟨0, 200, 0, 0xA0⟩, 0⟩ 7).err = CHIP_NO_ERROR ∧
      (GetWiFiRssi 3 0 ⟨⟨0, 200, 0, 0xA0⟩, 0⟩ 7).out = 7 := by
  decide

/-- C2 (evaluation at the failing input): a dBm-encoded valid level 64 decodes to
`64 - 256 = -192`, outside the signed byte range, yet the call returns
`CHIP_NO_ERROR` with `rssi = 64`; the same at level 127, which gives 127. -/
theorem C2_dbm_level_below_range_wraps :
    (GetWiFiRssi 3 0 ⟨⟨0, 64, 0, 0x08⟩, 0⟩ 0).err = CHIP_NO_ERROR ∧
      (GetWiFiRssi 3 0 ⟨⟨0, 64, 0, 0x08⟩, 0⟩ 0).out = 64 ∧
      (GetWiFiRssi 3 0 ⟨⟨0, 127, 0, 0x08⟩, 0⟩ 0).err = CHIP_NO_ERROR ∧
      (GetWiFiRssi 3 0 ⟨⟨0, 127, 0, 0x08⟩, 0⟩ 0).out = 127 := by
  decide

/-- C10 (evaluation at the failing input): with the socket open (descriptor 3) and
the wireless-extension query failing (`ioctl` returns -1), `GetWiFiChannelNumber`,
`GetWiFiRssi` and `GetWiFiCurrentMaxRate` return `CHIP_ERROR_BAD_REQUEST`, which
is not among the five documented kinds, while `GetWiFiBeaconLostCount` returns
`CHIP_ERROR_READ_FAILED` on the same failure. -/
theorem C10_failed_query_returns_bad_request :
    (GetWiFiChannelNumber 3 (-1) ⟨2437, 6⟩ 0).err = CHIP_ERROR_BAD_REQUEST ∧
      (GetWiFiRssi 3 (-1) ⟨⟨0, 200, 0, 0x08⟩, 5⟩ 7).err = CHIP_ERROR_BAD_REQUEST ∧
      (GetWiFiCurrentMaxRate 3 (-1) 54000000 11).err = CHIP_ERROR_BAD_REQUEST ∧
      (GetWiFiBeaconLostCount 3 (-1) ⟨⟨0, 200, 0, 0x08⟩, 5⟩ 9).err = CHIP_ERROR_READ_FAILED ∧
      CHIP_ERROR_BAD_REQUEST ∉
        [CHIP_ERROR_INVALID_ARGUMENT, CHIP_ERROR_OPEN_FAILED, CHIP_ERROR_READ_FAILED,
          CHIP_ERROR_BUFFER_TOO_SMALL, CHIP_ERROR_INVALID_INTEGER_VALUE] := by
  decide

/-- The error codes of the four wireless queries on their failure paths, for all
inputs: with the socket open and the query failing, `GetWiFiBeaconLostCount`
returns `CHIP_ERROR_READ_FAILED` and the three others return the
`CHIP_ERROR_BAD_REQUEST` of `GetWiFiParameter`; with the socket not opened all
four return `CHIP_ERROR_OPEN_FAILED`.  No out-parameter is written. -/
theorem wireless_query_failure_codes (socketRet ioctlRet : Int) (wrq_freq : iw_freq)
    (stats : iw_statistics) (bitrate_value : Int) (channelNumber : Nat) (rssi : Int)
    (beaconLostCount currentMaxRate : Nat) :
    (0 ≤ socketRet → ioctlRet < 0 →
        (GetWiFiChannelNumber socketRet ioctlRet wrq_freq channelNumber).err
            = CHIP_ERROR_BAD_REQUEST ∧
          (GetWiFiChannelNumber socketRet ioctlRet wrq_freq channelNumber).out = channelNumber ∧
          (GetWiFiRssi socketRet ioctlRet stats rssi).err = CHIP_ERROR_BAD_REQUEST ∧
          (GetWiFiRssi socketRet ioctlRet stats rssi).out = rssi ∧
          (GetWiFiBeaconLostCount socketRet ioctlRet stats beaconLostCount).err
            = CHIP_ERROR_READ_FAILED ∧
          (GetWiFiBeaconLostCount socketRet ioctlRet stats beaconLostCount).out
            = beaconLostCount ∧
          (GetWiFiCurrentMaxRate socketRet ioctlRet bitrate_value currentMaxRate).err
            = CHIP_ERROR_BAD_REQUEST ∧
          (GetWiFiCurrentMaxRate socketRet ioctlRet bitrate_value currentMaxRate).out
            = currentMaxRate) ∧
      (socketRet < 0 →
        (GetWiFiChannelNumber socketRet ioctlRet wrq_freq channelNumber).err
            = CHIP_ERROR_OPEN_FAILED ∧
          (GetWiFiChannelNumber socketRet ioctlRet wrq_freq channelNumber).out = channelNumber ∧
          (GetWiFiRssi socketRet ioctlRet stats rssi).err = CHIP_ERROR_OPEN_FAILED ∧
          (GetWiFiRssi socketRet ioctlRet stats rssi).out = rssi ∧
          (GetWiFiBeaconLostCount socketRet ioctlRet stats beaconLostCount).err
            = CHIP_ERROR_OPEN_FAILED ∧
          (GetWiFiBeaconLostCount socketRet ioctlRet stats beaconLostCount).out
            = beaconLostCount ∧
          (GetWiFiCurrentMaxRate socketRet ioctlRet bitrate_value currentMaxRate).err
            = CHIP_ERROR_OPEN_FAILED ∧
          (GetWiFiCurrentMaxRate socketRet ioctlRet bitrate_value currentMaxRate).out
            = currentMaxRate) := by
  constructor
  · intro hs hi
    have hsk : ¬ socketRet < 0 := not_lt.mpr hs
    simp [GetWiFiChannelNumber, GetWiFiRssi, GetWiFiBeaconLostCount, GetWiFiCurrentMaxRate,
      GetWiFiStats, GetWiFiParameter, hsk, hi]
  · intro hs
    simp [GetWiFiChannelNumber, GetWiFiRssi, GetWiFiBeaconLostCount, GetWiFiCurrentMaxRate, hs]

/-! ### GetEthPHYRate -/

/-- C3 (evaluation at the failing input): a reply with combined speed 2500 Mb/s
fails with `CHIP_ERROR_READ_FAILED` and leaves `pHYRate` as it was, while a
combined speed of 25000 yields the 2.5G member.  Combined speeds 1000 and 777
behave as the claim says: the 1G member, and `CHIP_ERROR_READ_FAILED`. -/
theorem C3_speed_2500_is_unmapped :
    (GetEthPHYRate 3 0 ⟨2500, 0, 0⟩ EMBER_ZCL_PHY_RATE_ENUM_RATE10_M).err
        = CHIP_ERROR_READ_FAILED ∧
      (GetEthPHYRate 3 0 ⟨2500, 0, 0⟩ EMBER_ZCL_PHY_RATE_ENUM_RATE10_M).out
        = EMBER_ZCL_PHY_RATE_ENUM_RATE10_M ∧
      (GetEthPHYRate 3 0 ⟨25000, 0, 0⟩ EMBER_ZCL_PHY_RATE_ENUM_RATE10_M).err = CHIP_NO_ERROR ∧
      (GetEthPHYRate 3 0 ⟨25000, 0, 0⟩ EMBER_ZCL_PHY_RATE_ENUM_RATE10_M).out
        = EMBER_ZCL_PHY_RATE_ENUM_RATE2_5_G ∧
      (GetEthPHYRate 3 0 ⟨1000, 0, 0⟩ EMBER_ZCL_PHY_RATE_ENUM_RATE10_M).out
        = EMBER_ZCL_PHY_RATE_ENUM_RATE1_G ∧
      (GetEthPHYRate 3 0 ⟨777, 0, 0⟩ EMBER_ZCL_PHY_RATE_ENUM_RATE10_M).err
        = CHIP_ERROR_READ_FAILED := by
  decide

/-! ### GetInterfaceHardwareAddrs -/

/-- C6: error precedence of `GetInterfaceHardwareAddrs`.  An empty name gives
`CHIP_ERROR_INVALID_ARGUMENT` with no system call issued; otherwise a failed
`socket` gives `CHIP_ERROR_OPEN_FAILED`; otherwise a failed query gives
`CHIP_ERROR_READ_FAILED` whatever the declared size; otherwise a declared size
below 6 gives `CHIP_ERROR_BUFFER_TOO_SMALL`; otherwise the call succeeds.  On
every failure the buffer is the one passed in. -/
theorem C6_hardware_addrs_error_precedence (ifname : List Char) (socketRet ioctlRet : Int)
    (sa_data buf : Nat → Nat) (bufSize : Nat) :
    (ifname = [] →
        (GetInterfaceHardwareAddrs ifname socketRet ioctlRet sa_data buf bufSize).err
            = CHIP_ERROR_INVALID_ARGUMENT ∧
          (GetInterfaceHardwareAddrs ifname socketRet ioctlRet sa_data buf bufSize).trace = []) ∧
      (ifname ≠ [] → socketRet < 0 →
        (GetInterfaceHardwareAddrs ifname socketRet ioctlRet sa_data buf bufSize).err
          = CHIP_ERROR_OPEN_FAILED) ∧
      (ifname ≠ [] → 0 ≤ socketRet → ioctlRet = -1 →
        (GetInterfaceHardwareAddrs ifname socketRet ioctlRet sa_data buf bufSize).err
          = CHIP_ERROR_READ_FAILED) ∧
      (ifname ≠ [] → 0 ≤ socketRet → ioctlRet ≠ -1 → bufSize < 6 →
        (GetInterfaceHardwareAddrs ifname socketRet ioctlRet sa_data buf bufSize).err
          = CHIP_ERROR_BUFFER_TOO_SMALL) ∧
      (ifname ≠ [] → 0 ≤ socketRet → ioctlRet ≠ -1 → 6 ≤ bufSize →
        (GetInterfaceHardwareAddrs ifname socketRet ioctlRet sa_data buf bufSize).err
          = CHIP_NO_ERROR) ∧
      ((GetInterfaceHardwareAddrs ifname socketRet ioctlRet sa_data buf bufSize).err
          ≠ CHIP_NO_ERROR →
        (GetInterfaceHardwareAddrs ifname socketRet ioctlRet sa_data buf bufSize).out = buf) := by
  refine ⟨?_, ?_, ?_, ?_, ?_, ?_⟩
  · intro hn
    simp [GetInterfaceHardwareAddrs, hn]
  · intro hn hs
    simp [GetInterfaceHardwareAddrs, hn, hs]
  · intro hn hs hi
    simp [GetInterfaceHardwareAddrs, hn, not_lt.mpr hs, hi]
  · intro hn hs hi hb
    simp [GetInterfaceHardwareAddrs, hn, not_lt.mpr hs, hi, hb]
  · intro hn hs hi hb
    simp [GetInterfaceHardwareAddrs, hn, not_lt.mpr hs, hi, hb]
  · by_cases hn : ifname = [] <;> by_cases hs : socketRet < 0 <;>
      by_cases hi : ioctlRet = -1 <;> by_cases hb : 6 ≤ bufSize <;>
      simp [GetInterfaceHardwareAddrs, hn, hs, hi, hb]

/-- C6 witness: a successful query on `wlan0` with a 4-byte buffer fails with
`CHIP_ERROR_BUFFER_TOO_SMALL`. -/
theorem C6_hardware_addrs_error_precedence_witness :
    (GetInterfaceHardwareAddrs ['w', 'l', 'a', 'n', '0'] 3 0 (fun i => 16 + i) (fun _ => 255) 4).err
      = CHIP_ERROR_BUFFER_TOO_SMALL :=
  (C6_hardware_addrs_error_precedence ['w', 'l', 'a', 'n', '0'] 3 0 (fun i => 16 + i)
    (fun _ => 255) 4).2.2.2.1 (by decide) (by decide) (by decide) (by decide)

/-- C7: on success with declared size `n ≥ 6`, the buffer holds the six bytes
`sa_data[0..5]` at offsets 0..5 and zero at every offset 6..n-1, whatever it
held before; offsets from `n` on keep their former content. -/
theorem C7_hardware_addrs_buffer_content (ifname : List Char) (socketRet ioctlRet : Int)
    (sa_data buf : Nat → Nat) (n : Nat) (hn : ifname ≠ []) (hs : 0 ≤ socketRet)
    (hi : ioctlRet ≠ -1) (h6 : 6 ≤ n) :
    (GetInterfaceHardwareAddrs ifname socketRet ioctlRet sa_data buf n).err = CHIP_NO_ERROR ∧
      (∀ i, i < 6 →
        (GetInterfaceHardwareAddrs ifname socketRet ioctlRet sa_data buf n).out i = sa_data i) ∧
      (∀ i, 6 ≤ i → i < n →
        (GetInterfaceHardwareAddrs ifname socketRet ioctlRet sa_data buf n).out i = 0) ∧
      (∀ i, n ≤ i →
        (GetInterfaceHardwareAddrs ifname socketRet ioctlRet sa_data buf n).out i = buf i) := by
  have e : GetInterfaceHardwareAddrs ifname socketRet ioctlRet sa_data buf n
      = ⟨CHIP_NO_ERROR, memcpy (memset buf 0 n) sa_data 6,
          [SysCall.socket socketRet, SysCall.ioctl Request.SIOCGIFHWADDR ioctlRet]
            ++ [SysCall.close socketRet]⟩ := by
    simp [GetInterfaceHardwareAddrs, hn, not_lt.mpr hs, hi, h6]
  rw [e]
  refine ⟨rfl, ?_, ?_, ?_⟩
  · intro i h
    simp [memcpy, h]
  · intro i h1 h2
    simp [memcpy, memset, not_lt.mpr h1, h2]
  · intro i h
    have h1 : ¬ i < 6 := by omega
    have h2 : ¬ i < n := by omega
    simp [memcpy, memset, h1, h2]

/-- C7 witness: a 6-byte buffer receives exactly the six address bytes, and
offset 6 is left alone. -/
theorem C7_hardware_addrs_buffer_content_witness :
    (GetInterfaceHardwareAddrs ['e', 't', 'h', '0'] 3 0 (fun i => 16 + i) (fun _ => 255) 6).out 5
        = 21 ∧
      (GetInterfaceHardwareAddrs ['e', 't', 'h', '0'] 3 0 (fun i => 16 + i) (fun _ => 255) 6).out 6
        = 255 :=
  ⟨(C7_hardware_addrs_buffer_content ['e', 't', 'h', '0'] 3 0 (fun i => 16 + i) (fun _ => 255) 6
      (by decide) (by decide) (by decide) (by decide)).2.1 5 (by decide),
    (C7_hardware_addrs_buffer_content ['e', 't', 'h', '0'] 3 0 (fun i => 16 + i) (fun _ => 255) 6
      (by decide) (by decide) (by decide) (by decide)).2.2.2 6 (by decide)⟩

/-! ### Address enumeration -/

theorem storeAll_index (store : NetworkInterface → Nat → (Nat → Nat) → NetworkInterface)
    (as : List (Nat → Nat)) (index : Nat) (ifp : NetworkInterface) (written : List Nat) :
    (storeAll store as index ifp written).1 = index + as.length := by
  induction as generalizing index ifp written with
  | nil => simp [storeAll]
  | cons a as ih =>
    simp only [storeAll, List.length_cons]
    rw [ih]
    omega

theorem storeAll_written (store : NetworkInterface → Nat → (Nat → Nat) → NetworkInterface)
    (as : List (Nat → Nat)) (index : Nat) (ifp : NetworkInterface) (written : List Nat) :
    (storeAll store as index ifp written).2.2 = written ++ List.range' index as.length := by
  induction as generalizing index ifp written with
  | nil => simp [storeAll]
  | cons a as ih =>
    simp only [storeAll, List.length_cons]
    rw [ih]
    simp [List.range'_succ]

theorem storeAll_get {β : Type} (store : NetworkInterface → Nat → (Nat → Nat) → NetworkInterface)
    (get : NetworkInterface → Nat → β) (w : Nat → β → (Nat → Nat) → β)
    (law : ∀ ifp i a r, get (store ifp i a) r = if r = i then w i (get ifp i) a else get ifp r)
    (as : List (Nat → Nat)) (index : Nat) (ifp : NetworkInterface) (written : List Nat)
    (r : Nat) :
    (r < index → get (storeAll store as index ifp written).2.1 r = get ifp r) ∧
      (∀ a, index ≤ r → as[r - index]? = some a →
        get (storeAll store as index ifp written).2.1 r = w r (get ifp r) a) ∧
      (index + as.length ≤ r → get (storeAll store as index ifp written).2.1 r = get ifp r) := by
  induction as generalizing index ifp written with
  | nil =>
    refine ⟨fun _ => rfl, ?_, fun _ => rfl⟩
    intro a _ h
    simp at h
  | cons b as ih =>
    have IH := ih (index + 1) (store ifp index b) (written ++ [index])
    simp only [storeAll, List.length_cons]
    refine ⟨?_, ?_, ?_⟩
    · intro h
      rw [IH.1 (by omega), law, if_neg (by omega)]
    · intro a h1 h2
      by_cases hr : r = index
      · subst hr
        simp only [Nat.sub_self, List.getElem?_cons_zero, Option.some.injEq] at h2
        rw [IH.1 (by omega), law, if_pos rfl, h2]
      · have e : r - index = (r - (index + 1)) + 1 := by omega
        rw [e, List.getElem?_cons_succ] at h2
        rw [IH.2.1 a (by omega) h2, law, if_neg hr]
    · intro h
      rw [IH.2.2 (by omega), law, if_neg (by omega)]

theorem loopIPv4_eq_storeAll (kMax : Nat) (ifname : List Char) (h255 : kMax ≤ 255)
    (l : List ifaddrs) (index : Nat) (ifp : NetworkInterface) (written : List Nat)
    (hlt : index < kMax) :
    GetInterfaceIPv4Addrs.loop kMax ifname l index ifp written
      = storeAll storeIPv4 ((matchingIPv4 ifname l).take (kMax - index)) index ifp written := by
  induction l generalizing index ifp written with
  | nil => simp [GetInterfaceIPv4Addrs.loop, matchingIPv4, storeAll]
  | cons ifa rest ih =>
    have hm : (index + 1) % 256 = index + 1 := Nat.mod_eq_of_lt (by omega)
    have hk : kMax - index = (kMax - (index + 1)) + 1 := by omega
    unfold GetInterfaceIPv4Addrs.loop
    cases hA : ifa.ifa_addr with
    | none =>
      have e : matchIPv4 ifname ifa = none := by simp [matchIPv4, hA]
      simp only [matchingIPv4, List.filterMap_cons, e]
      exact ih index ifp written hlt
    | some sa =>
      cases sa with
      | sockaddr_in sin_addr =>
        by_cases hn : ifname = ifa.ifa_name
        · have e : matchIPv4 ifname ifa = some sin_addr := by simp [matchIPv4, hA, hn]
          simp only [matchingIPv4, List.filterMap_cons, e, if_pos hn, hm]
          rw [hk, List.take_succ_cons]
          simp only [storeAll]
          by_cases hge : index + 1 ≥ kMax
          · have hz : kMax - (index + 1) = 0 := by omega
            rw [if_pos hge, hz, List.take_zero]
            rfl
          · rw [if_neg hge]
            exact ih (index + 1) _ _ (by omega)
        · have e : matchIPv4 ifname ifa = none := by simp [matchIPv4, hA, hn]
          simp only [matchingIPv4, List.filterMap_cons, e, if_neg hn]
          exact ih index ifp written hlt
      | sockaddr_in6 sin6_addr =>
        have e : matchIPv4 ifname ifa = none := by simp [matchIPv4, hA]
        simp only [matchingIPv4, List.filterMap_cons, e]
        exact ih index ifp written hlt
      | other fam =>
        have e : matchIPv4 ifname ifa = none := by simp [matchIPv4, hA]
        simp only [matchingIPv4, List.filterMap_cons, e]
        exact ih index ifp written hlt

theorem loopIPv6_eq_storeAll (kMax : Nat) (ifname : List Char) (h255 : kMax ≤ 255)
    (l : List ifaddrs) (index : Nat) (ifp : NetworkInterface) (written : List Nat)
    (hlt : index < kMax) :
    GetInterfaceIPv6Addrs.loop kMax ifname l index ifp written
      = storeAll storeIPv6 ((matchingIPv6 ifname l).take (kMax - index)) index ifp written := by
  induction l generalizing index ifp written with
  | nil => simp [GetInterfaceIPv6Addrs.loop, matchingIPv6, storeAll]
  | cons ifa rest ih =>
    have hm : (index + 1) % 256 = index + 1 := Nat.mod_eq_of_lt (by omega)
    have hk : kMax - index = (kMax - (index + 1)) + 1 := by omega
    unfold GetInterfaceIPv6Addrs.loop
    cases hA : ifa.ifa_addr with
    | none =>
      have e : matchIPv6 ifname ifa = none := by simp [matchIPv6, hA]
      simp only [matchingIPv6, List.filterMap_cons, e]
      exact ih index ifp written hlt
    | some sa =>
      cases sa with
      | sockaddr_in6 sin6_addr =>
        by_cases hn : ifname = ifa.ifa_name
        · have e : matchIPv6 ifname ifa = some sin6_addr := by simp [matchIPv6, hA, hn]
          simp only [matchingIPv6, List.filterMap_cons, e, if_pos hn, hm]
          rw [hk, List.take_succ_cons]
          simp only [storeAll]
          by_cases hge : index + 1 ≥ kMax
          · have hz : kMax - (index + 1) = 0 := by omega
            rw [if_pos hge, hz, List.take_zero]
            rfl
          · rw [if_neg hge]
            exact ih (index + 1) _ _ (by omega)
        · have e : matchIPv6 ifname ifa = none := by simp [matchIPv6, hA, hn]
          simp only [matchingIPv6, List.filterMap_cons, e, if_neg hn]
          exact ih index ifp written hlt
      | sockaddr_in sin_addr =>
        have e : matchIPv6 ifname ifa = none := by simp [matchIPv6, hA]
        simp only [matchingIPv6, List.filterMap_cons, e]
        exact ih index ifp written hlt
      | other fam =>
        have e : matchIPv6 ifname ifa = none := by simp [matchIPv6, hA]
        simp only [matchingIPv6, List.filterMap_cons, e]
        exact ih index ifp written hlt

theorem GetInterfaceIPv4Addrs_eq (kMax : Nat) (ifname : List Char) (ret : Int)
    (l : List ifaddrs) (size : Nat) (ifp : NetworkInterface) (h1 : 1 ≤ kMax) (h255 : kMax ≤ 255)
    (hret : ret ≠ -1) (hk : 1 ≤ (matchingIPv4 ifname l).length) :
    GetInterfaceIPv4Addrs kMax ifname ret l size ifp
      = ⟨CHIP_NO_ERROR,
          ⟨min (matchingIPv4 ifname l).length kMax,
            (storeAll storeIPv4 ((matchingIPv4 ifname l).take kMax) 0 ifp []).2.1,
            List.range (min (matchingIPv4 ifname l).length kMax)⟩,
          [SysCall.getifaddrs ret, SysCall.freeifaddrs]⟩ := by
  have hi := storeAll_index storeIPv4 ((matchingIPv4 ifname l).take kMax) 0 ifp []
  have hw := storeAll_written storeIPv4 ((matchingIPv4 ifname l).take kMax) 0 ifp []
  simp only [List.length_take, Nat.zero_add, List.nil_append, ← List.range_eq_range'] at hi hw
  have hc : min kMax (matchingIPv4 ifname l).length = min (matchingIPv4 ifname l).length kMax :=
    Nat.min_comm _ _
  rw [hc] at hi hw
  have hpos : min (matchingIPv4 ifname l).length kMax > 0 := by omega
  unfold GetInterfaceIPv4Addrs
  rw [if_neg hret, loopIPv4_eq_storeAll kMax ifname h255 l 0 ifp [] (by omega), Nat.sub_zero]
  simp only [hi, hw, if_pos hpos]

theorem GetInterfaceIPv6Addrs_eq (kMax : Nat) (ifname : List Char) (ret : Int)
    (l : List ifaddrs) (size : Nat) (ifp : NetworkInterface) (h1 : 1 ≤ kMax) (h255 : kMax ≤ 255)
    (hret : ret ≠ -1) (hk : 1 ≤ (matchingIPv6 ifname l).length) :
    GetInterfaceIPv6Addrs kMax ifname ret l size ifp
      = ⟨CHIP_NO_ERROR,
          ⟨min (matchingIPv6 ifname l).length kMax,
            (storeAll storeIPv6 ((matchingIPv6 ifname l).take kMax) 0 ifp []).2.1,
            List.range (min (matchingIPv6 ifname l).length kMax)⟩,
          [SysCall.getifaddrs ret, SysCall.freeifaddrs]⟩ := by
  have hi := storeAll_index storeIPv6 ((matchingIPv6 ifname l).take kMax) 0 ifp []
  have hw := storeAll_written storeIPv6 ((matchingIPv6 ifname l).take kMax) 0 ifp []
  simp only [List.length_take, Nat.zero_add, List.nil_append, ← List.range_eq_range'] at hi hw
  have hc : min kMax (matchingIPv6 ifname l).length = min (matchingIPv6 ifname l).length kMax :=
    Nat.min_comm _ _
  rw [hc] at hi hw
  have hpos : min (matchingIPv6 ifname l).length kMax > 0 := by omega
  unfold GetInterfaceIPv6Addrs
  rw [if_neg hret, loopIPv6_eq_storeAll kMax ifname h255 l 0 ifp [] (by omega), Nat.sub_zero]
  simp only [hi, hw, if_pos hpos]

theorem storeIPv4_buffer_law (ifp : NetworkInterface) (i : Nat) (a : Nat → Nat) (r : Nat) :
    (storeIPv4 ifp i a).Ipv4AddressesBuffer r
      = if r = i then memcpy (ifp.Ipv4AddressesBuffer i) a kMaxIPv4AddrSize
        else ifp.Ipv4AddressesBuffer r := by
  simp [storeIPv4, Function.update_apply]

theorem storeIPv4_span_law (ifp : NetworkInterface) (i : Nat) (a : Nat → Nat) (r : Nat) :
    (storeIPv4 ifp i a).Ipv4AddressSpans r
      = if r = i then (⟨some i, kMaxIPv4AddrSize⟩ : ByteSpan) else ifp.Ipv4AddressSpans r := by
  simp [storeIPv4, Function.update_apply]

theorem storeIPv6_buffer_law (ifp : NetworkInterface) (i : Nat) (a : Nat → Nat) (r : Nat) :
    (storeIPv6 ifp i a).Ipv6AddressesBuffer r
      = if r = i then memcpy (ifp.Ipv6AddressesBuffer i) a kMaxIPv6AddrSize
        else ifp.Ipv6AddressesBuffer r := by
  simp [storeIPv6, Function.update_apply]

theorem storeIPv6_span_law (ifp : NetworkInterface) (i : Nat) (a : Nat → Nat) (r : Nat) :
    (storeIPv6 ifp i a).Ipv6AddressSpans r
      = if r = i then (⟨some i, kMaxIPv6AddrSize⟩ : ByteSpan) else ifp.Ipv6AddressSpans r := by
  simp [storeIPv6, Function.update_apply]

theorem getElem?_take_of_lt_min {α : Type} (M : List α) (kMax i : Nat) (a : α)
    (hi : i < min M.length kMax) (ha : M[i]? = some a) : (M.take kMax)[i - 0]? = some a := by
  rw [Nat.sub_zero, List.getElem?_take_of_lt (by omega)]
  exact ha

/-- The row counter `index` is a `uint8_t`: were the maximum count 256, a list with
256 matching IPv4 nodes of `wlan0` would wrap it to 0 and the call would return
`CHIP_ERROR_READ_FAILED`.  This is why the maximum count is taken to be at most
255 in the statements on the address enumeration. -/
theorem row_counter_wraps_at_256 :
    (matchingIPv4 ['w', 'l', 'a', 'n', '0'] (List.replicate 256 (wlan0IPv4 1))).length = 256 ∧
      (GetInterfaceIPv4Addrs 256 ['w', 'l', 'a', 'n', '0'] 0 (List.replicate 256 (wlan0IPv4 1))
        0 emptyRecord).err = CHIP_ERROR_READ_FAILED := by
  set_option maxRecDepth 100000 in decide

/-- C8: bounded address enumeration, for a maximum count from 1 to 255 (the two
maximum counts are constants of a header absent from the sources, and the count
is kept in a `uint8_t`).  When `getifaddrs` succeeds and the list has `k ≥ 1`
nodes with a non-null address of the requested family and the requested name,
the call succeeds, the reported size is `min k maximum`, rows `0..size-1` hold
the first `size` such addresses in list order (4 bytes each for IPv4, 16 for
IPv6) with the span of each row pointing at it, every row from `size` on keeps
its former content, and the rows stored to are exactly `0..size-1`, all below
the maximum. -/
theorem C8_bounded_address_enumeration (kMax : Nat) (ifname : List Char) (ret : Int)
    (l : List ifaddrs) (size : Nat) (ifp : NetworkInterface) (h1 : 1 ≤ kMax) (h255 : kMax ≤ 255)
    (hret : ret ≠ -1) :
    (1 ≤ (matchingIPv4 ifname l).length →
      (GetInterfaceIPv4Addrs kMax ifname ret l size ifp).err = CHIP_NO_ERROR ∧
      (GetInterfaceIPv4Addrs kMax ifname ret l size ifp).out.size
        = min (matchingIPv4 ifname l).length kMax ∧
      (∀ i a, i < (GetInterfaceIPv4Addrs kMax ifname ret l size ifp).out.size →
        (matchingIPv4 ifname l)[i]? = some a →
        (∀ j, j < 4 →
          (GetInterfaceIPv4Addrs kMax ifname ret l size ifp).out.ifp.Ipv4AddressesBuffer i j = a j) ∧
        (GetInterfaceIPv4Addrs kMax ifname ret l size ifp).out.ifp.Ipv4AddressSpans i
          = ⟨some i, 4⟩) ∧
      (∀ i, (GetInterfaceIPv4Addrs kMax ifname ret l size ifp).out.size ≤ i →
        (GetInterfaceIPv4Addrs kMax ifname ret l size ifp).out.ifp.Ipv4AddressesBuffer i
          = ifp.Ipv4AddressesBuffer i ∧
        (GetInterfaceIPv4Addrs kMax ifname ret l size ifp).out.ifp.Ipv4AddressSpans i
          = ifp.Ipv4AddressSpans i) ∧
      (GetInterfaceIPv4Addrs kMax ifname ret l size ifp).out.written
        = List.range (GetInterfaceIPv4Addrs kMax ifname ret l size ifp).out.size ∧
      (∀ i ∈ (GetInterfaceIPv4Addrs kMax ifname ret l size ifp).out.written, i < kMax)) ∧
    (1 ≤ (matchingIPv6 ifname l).length →
      (GetInterfaceIPv6Addrs kMax ifname ret l size ifp).err = CHIP_NO_ERROR ∧
      (GetInterfaceIPv6Addrs kMax ifname ret l size ifp).out.size
        = min (matchingIPv6 ifname l).length kMax ∧
      (∀ i a, i < (GetInterfaceIPv6Addrs kMax ifname ret l size ifp).out.size →
        (matchingIPv6 ifname l)[i]? = some a →
        (∀ j, j < 16 →
          (GetInterfaceIPv6Addrs kMax ifname ret l size ifp).out.ifp.Ipv6AddressesBuffer i j = a j) ∧
        (GetInterfaceIPv6Addrs kMax ifname ret l size ifp).out.ifp.Ipv6AddressSpans i
          = ⟨some i, 16⟩) ∧
      (∀ i, (GetInterfaceIPv6Addrs kMax ifname ret l size ifp).out.size ≤ i →
        (GetInterfaceIPv6Addrs kMax ifname ret l size ifp).out.ifp.Ipv6AddressesBuffer i
          = ifp.Ipv6AddressesBuffer i ∧
        (GetInterfaceIPv6Addrs kMax ifname ret l size ifp).out.ifp.Ipv6AddressSpans i
          = ifp.Ipv6AddressSpans i) ∧
      (GetInterfaceIPv6Addrs kMax ifname ret l size ifp).out.written
        = List.range (GetInterfaceIPv6Addrs kMax ifname ret l size ifp).out.size ∧
      (∀ i ∈ (GetInterfaceIPv6Addrs kMax ifname ret l size ifp).out.written, i < kMax)) := by
  constructor
  · intro hk
    rw [GetInterfaceIPv4Addrs_eq kMax ifname ret l size ifp h1 h255 hret hk]
    have hlen : ((matchingIPv4 ifname l).take kMax).length
        = min (matchingIPv4 ifname l).length kMax := by
      rw [List.length_take, Nat.min_comm]
    refine ⟨rfl, rfl, ?_, ?_, rfl, ?_⟩
    · intro i a hi ha
      have hb := (storeAll_get storeIPv4 (fun p r => p.Ipv4AddressesBuffer r)
        (fun _ old a => memcpy old a kMaxIPv4AddrSize) storeIPv4_buffer_law
        ((matchingIPv4 ifname l).take kMax) 0 ifp [] i).2.1 a (Nat.zero_le i)
        (getElem?_take_of_lt_min _ kMax i a hi ha)
      have hsp := (storeAll_get storeIPv4 (fun p r => p.Ipv4AddressSpans r)
        (fun i _ _ => (⟨some i, kMaxIPv4AddrSize⟩ : ByteSpan)) storeIPv4_span_law
        ((matchingIPv4 ifname l).take kMax) 0 ifp [] i).2.1 a (Nat.zero_le i)
        (getElem?_take_of_lt_min _ kMax i a hi ha)
      refine ⟨?_, hsp⟩
      intro j hj
      have hj4 : j < kMaxIPv4AddrSize := hj
      simp only at hb
      rw [hb]
      simp [memcpy, hj4]
    · intro i hi
      have hb := (storeAll_get storeIPv4 (fun p r => p.Ipv4AddressesBuffer r)
        (fun _ old a => memcpy old a kMaxIPv4AddrSize) storeIPv4_buffer_law
        ((matchingIPv4 ifname l).take kMax) 0 ifp [] i).2.2 (by rw [hlen]; simpa using hi)
      have hsp := (storeAll_get storeIPv4 (fun p r => p.Ipv4AddressSpans r)
        (fun i _ _ => (⟨some i, kMaxIPv4AddrSize⟩ : ByteSpan)) storeIPv4_span_law
        ((matchingIPv4 ifname l).take kMax) 0 ifp [] i).2.2 (by rw [hlen]; simpa using hi)
      exact ⟨hb, hsp⟩
    · intro i hi
      simp only [List.mem_range] at hi
      omega
  · intro hk
    rw [GetInterfaceIPv6Addrs_eq kMax ifname ret l size ifp h1 h255 hret hk]
    have hlen : ((matchingIPv6 ifname l).take kMax).length
        = min (matchingIPv6 ifname l).length kMax := by
      rw [List.length_take, Nat.min_comm]
    refine ⟨rfl, rfl, ?_, ?_, rfl, ?_⟩
    · intro i a hi ha
      have hb := (storeAll_get storeIPv6 (fun p r => p.Ipv6AddressesBuffer r)
        (fun _ old a => memcpy old a kMaxIPv6AddrSize) storeIPv6_buffer_law
        ((matchingIPv6 ifname l).take kMax) 0 ifp [] i).2.1 a (Nat.zero_le i)
        (getElem?_take_of_lt_min _ kMax i a hi ha)
      have hsp := (storeAll_get storeIPv6 (fun p r => p.Ipv6AddressSpans r)
        (fun i _ _ => (⟨some i, kMaxIPv6AddrSize⟩ : ByteSpan)) storeIPv6_span_law
        ((matchingIPv6 ifname l).take kMax) 0 ifp [] i).2.1 a (Nat.zero_le i)
        (getElem?_take_of_lt_min _ kMax i a hi ha)
      refine ⟨?_, hsp⟩
      intro j hj
      have hj16 : j < kMaxIPv6AddrSize := hj
      simp only at hb
      rw [hb]
      simp [memcpy, hj16]
    · intro i hi
      have hb := (storeAll_get storeIPv6 (fun p r => p.Ipv6AddressesBuffer r)
        (fun _ old a => memcpy old a kMaxIPv6AddrSize) storeIPv6_buffer_law
        ((matchingIPv6 ifname l).take kMax) 0 ifp [] i).2.2 (by rw [hlen]; simpa using hi)
      have hsp := (storeAll_get storeIPv6 (fun p r => p.Ipv6AddressSpans r)
        (fun i _ _ => (⟨some i, kMaxIPv6AddrSize⟩ : ByteSpan)) storeIPv6_span_law
        ((matchingIPv6 ifname l).take kMax) 0 ifp [] i).2.2 (by rw [hlen]; simpa using hi)
      exact ⟨hb, hsp⟩
    · intro i hi
      simp only [List.mem_range] at hi
      omega

/-- C8 witness: with a maximum of 2 and three IPv4 nodes of `wlan0` in the list
(an IPv6 node in between), the call succeeds with size 2, row 1 holds the
second IPv4 address `10.0.0.3`, and row 2 is left as it was. -/
theorem C8_bounded_address_enumeration_witness :
    (GetInterfaceIPv4Addrs 2 ['w', 'l', 'a', 'n', '0'] 0
        [wlan0IPv4 1, wlan0IPv6 2, wlan0IPv4 3, wlan0IPv4 4] 0 emptyRecord).err = CHIP_NO_ERROR ∧
      (GetInterfaceIPv4Addrs 2 ['w', 'l', 'a', 'n', '0'] 0
        [wlan0IPv4 1, wlan0IPv6 2, wlan0IPv4 3, wlan0IPv4 4] 0 emptyRecord).out.size = 2 ∧
      (GetInterfaceIPv4Addrs 2 ['w', 'l', 'a', 'n', '0'] 0
        [wlan0IPv4 1, wlan0IPv6 2, wlan0IPv4 3, wlan0IPv4 4] 0 emptyRecord).out.written
          = [0, 1] := by
  have h := (C8_bounded_address_enumeration 2 ['w', 'l', 'a', 'n', '0'] 0
    [wlan0IPv4 1, wlan0IPv6 2, wlan0IPv4 3, wlan0IPv4 4] 0 emptyRecord
    (by decide) (by decide) (by decide)).1 (by decide)
  have hs : (GetInterfaceIPv4Addrs 2 ['w', 'l', 'a', 'n', '0'] 0
      [wlan0IPv4 1, wlan0IPv6 2, wlan0IPv4 3, wlan0IPv4 4] 0 emptyRecord).out.size = 2 :=
    h.2.1.trans (by decide)
  refine ⟨h.1, hs, ?_⟩
  rw [h.2.2.2.2.1, hs]
  decide

/-! ### Frequency / channel mapping -/

theorem Map5000MHz_eq_lookup (c : Nat) : Map5000MHz c = (table5GHz.lookup c).getD 0 := by
  unfold Map5000MHz
  split <;> first | rfl | skip
  have hne : ∀ p ∈ table5GHz, ¬ (c == p.1) = true := by
    intro p hp
    simp only [table5GHz, List.mem_cons, List.mem_singleton, List.not_mem_nil, or_false] at hp
    simp only [beq_iff_eq]
    rcases hp with h | h | h | h | h | h | h | h | h | h | h | h | h | h | h | h | h | h | h |
      h | h | h | h | h | h | h | h | h | h | h | h | h | h | h | h | h | h | h | h | h | h | h <;>
      (subst h; assumption)
  have hnone : ∀ l : List (Nat × Nat), (∀ p ∈ l, ¬ (c == p.1) = true) → l.lookup c = none := by
    intro l
    induction l with
    | nil => intro _; rfl
    | cons p l ih =>
      intro h
      have hp := h p (List.mem_cons_self p l)
      obtain ⟨k, v⟩ := p
      rw [List.lookup_cons]
      simp only [Bool.not_eq_true] at hp
      rw [hp]
      exact ih (fun q hq => h q (List.mem_cons_of_mem _ hq))
  rw [hnone table5GHz hne]
  rfl

/-- C11: `MapFrequencyToChannel` on the 2.4 GHz range.  For every 16-bit frequency
`f`: below 2412 the result is 0; from 2412 to 2483 it is `(f - 2407) / 5` with
integer division; at 2484 it is 14. -/
theorem C11_MapFrequencyToChannel_2_4_GHz (f : Nat) (hf : f ≤ 65535) :
    (f < 2412 → MapFrequencyToChannel f = 0) ∧
      (2412 ≤ f → f < 2484 → MapFrequencyToChannel f = (f - 2407) / 5) ∧
      (f = 2484 → MapFrequencyToChannel f = 14) := by
  refine ⟨?_, ?_, ?_⟩
  · intro h
    simp [MapFrequencyToChannel, h]
  · intro h1 h2
    unfold MapFrequencyToChannel static_cast_uint8
    rw [if_neg (by omega), if_pos h2]
    rw [Int.tdiv_eq_ediv] <;> omega
  · intro h
    subst h
    decide

/-- C11 witnesses: 2484 MHz gives 14, 2412 MHz gives 1, 2400 MHz gives 0. -/
theorem C11_MapFrequencyToChannel_2_4_GHz_witness :
    MapFrequencyToChannel 2484 = 14 ∧ MapFrequencyToChannel 2412 = (2412 - 2407) / 5 ∧
      MapFrequencyToChannel 2400 = 0 :=
  ⟨(C11_MapFrequencyToChannel_2_4_GHz 2484 (by decide)).2.2 rfl,
    (C11_MapFrequencyToChannel_2_4_GHz 2412 (by decide)).2.1 (by decide) (by decide),
    (C11_MapFrequencyToChannel_2_4_GHz 2400 (by decide)).1 (by decide)⟩

theorem lookup_eq_none_of_not_mem (c : Nat) (l : List (Nat × Nat))
    (h : c ∉ l.map Prod.fst) : l.lookup c = none := by
  induction l with
  | nil => rfl
  | cons p l ih =>
    obtain ⟨k, v⟩ := p
    simp only [List.map_cons, List.mem_cons, not_or] at h
    have hb : (c == k) = false := by
      simp only [beq_eq_false_iff_ne, ne_eq]
      exact h.1
    rw [List.lookup_cons, hb]
    exact ih h.2

theorem Map2400MHz_formula (c : Nat) (h1 : 1 ≤ c) (h2 : c ≤ 13) :
    Map2400MHz c = 2412 + (c - 1) * 5 := by
  unfold Map2400MHz static_cast_uint16
  rw [if_pos ⟨h1, h2⟩]
  omega

theorem Map2400MHz_other (c : Nat) (h : ¬ (1 ≤ c ∧ c ≤ 14)) : Map2400MHz c = 0 := by
  unfold Map2400MHz
  rw [if_neg (by omega), if_neg (by omega)]

theorem Map5000MHz_table : ∀ p ∈ table5GHz, Map5000MHz p.1 = p.2 := by
  decide

/-- C12: `MapChannelToFrequency` equals the reference mapping for every band value
and every channel, the two band constants being different numbers.  In the
2.4 GHz band channels 1..13 give `2412 + (channel-1)*5`, channel 14 gives 2484,
every other channel 0; in the 5 GHz band each listed channel gives its table
frequency (36 gives 5180, 165 gives 5825, 183 gives 4915) and every other
channel 0; a channel in neither table gives 0 in either band; any other band
value gives 0. -/
theorem C12_MapChannelToFrequency_reference (k24 k50 : Nat) (hk : k24 ≠ k50) :
    (∀ band c, MapChannelToFrequency k24 k50 band c
        = referenceChannelToFrequency k24 k50 band c) ∧
      (∀ c, 1 ≤ c → c ≤ 13 → MapChannelToFrequency k24 k50 k24 c = 2412 + (c - 1) * 5) ∧
      MapChannelToFrequency k24 k50 k24 14 = 2484 ∧
      (∀ c, ¬ (1 ≤ c ∧ c ≤ 14) → MapChannelToFrequency k24 k50 k24 c = 0) ∧
      (∀ c f, (c, f) ∈ table5GHz → MapChannelToFrequency k24 k50 k50 c = f) ∧
      (MapChannelToFrequency k24 k50 k50 36 = 5180 ∧
        MapChannelToFrequency k24 k50 k50 165 = 5825 ∧
        MapChannelToFrequency k24 k50 k50 183 = 4915) ∧
      (∀ c, c ∉ channels5GHz → MapChannelToFrequency k24 k50 k50 c = 0) ∧
      (∀ c, ¬ (1 ≤ c ∧ c ≤ 14) → c ∉ channels5GHz →
        MapChannelToFrequency k24 k50 k24 c = 0 ∧ MapChannelToFrequency k24 k50 k50 c = 0) ∧
      (∀ band c, band ≠ k24 → band ≠ k50 → MapChannelToFrequency k24 k50 band c = 0) := by
  have h24 : ∀ c, MapChannelToFrequency k24 k50 k24 c = Map2400MHz c := by
    intro c
    unfold MapChannelToFrequency
    rw [if_pos rfl]
  have h50 : ∀ c, MapChannelToFrequency k24 k50 k50 c = Map5000MHz c := by
    intro c
    unfold MapChannelToFrequency
    rw [if_neg (Ne.symm hk), if_pos rfl]
  have hout : ∀ c, c ∉ channels5GHz → Map5000MHz c = 0 := by
    intro c hc
    rw [Map5000MHz_eq_lookup, lookup_eq_none_of_not_mem c table5GHz hc]
    rfl
  refine ⟨?_, ?_, ?_, ?_, ?_, ?_, ?_, ?_, ?_⟩
  · intro band c
    unfold MapChannelToFrequency referenceChannelToFrequency
    by_cases hb : band = k24
    · rw [if_pos hb, if_pos hb]
      by_cases h : 1 ≤ c ∧ c ≤ 13
      · rw [if_pos h, Map2400MHz_formula c h.1 h.2]
      · by_cases h14 : c = 14
        · subst h14
          decide
        · rw [if_neg h, if_neg h14, Map2400MHz_other c (by omega)]
    · rw [if_neg hb, if_neg hb]
      by_cases hb5 : band = k50
      · rw [if_pos hb5, if_pos hb5, Map5000MHz_eq_lookup]
      · rw [if_neg hb5, if_neg hb5]
  · intro c h1 h2
    rw [h24, Map2400MHz_formula c h1 h2]
  · rw [h24]
    decide
  · intro c h
    rw [h24, Map2400MHz_other c h]
  · intro c f hcf
    rw [h50]
    exact Map5000MHz_table (c, f) hcf
  · rw [h50, h50, h50]
    decide
  · intro c hc
    rw [h50, hout c hc]
  · intro c h hc
    rw [h24, h50, Map2400MHz_other c h, hout c hc]
    exact ⟨rfl, rfl⟩
  · intro band c h1 h2
    unfold MapChannelToFrequency
    rw [if_neg h1, if_neg h2]

/-- C12 witness: band numbers 2400 and 5000; channel 36 in the 5 GHz band. -/
theorem C12_MapChannelToFrequency_reference_witness :
    (2400 : Nat) ≠ 5000 ∧ MapChannelToFrequency 2400 5000 5000 36 = 5180 ∧
      MapChannelToFrequency 2400 5000 2400 36 = 0 ∧
      MapChannelToFrequency 2400 5000 7 36 = 0 :=
  ⟨by decide,
    (C12_MapChannelToFrequency_reference 2400 5000 (by decide)).2.2.2.2.2.1.1,
    (C12_MapChannelToFrequency_reference 2400 5000 (by decide)).2.2.2.1 36 (by decide),
    (C12_MapChannelToFrequency_reference 2400 5000 (by decide)).2.2.2.2.2.2.2.2 7 36
      (by decide) (by decide)⟩

/-- C17: the inverse mapping disagrees with the forward 5 GHz table on at least two
listed channels: for distinct band constants there are two different channels
whose 5 GHz frequency is non-zero and whose frequency maps back to another
channel (183 and 184, mapped back to 239 and 240). -/
theorem C17_inverse_inconsistent_with_table (k24 k50 : Nat) (hk : k24 ≠ k50) :
    ∃ c1 c2 : Nat, c1 ≠ c2 ∧ c1 ∈ channels5GHz ∧ c2 ∈ channels5GHz ∧
      MapChannelToFrequency k24 k50 k50 c1 ≠ 0 ∧
      MapChannelToFrequency k24 k50 k50 c2 ≠ 0 ∧
      MapFrequencyToChannel (MapChannelToFrequency k24 k50 k50 c1) ≠ c1 ∧
      MapFrequencyToChannel (MapChannelToFrequency k24 k50 k50 c2) ≠ c2 := by
  have h50 : ∀ c, MapChannelToFrequency k24 k50 k50 c = Map5000MHz c := by
    intro c
    unfold MapChannelToFrequency
    rw [if_neg (Ne.symm hk), if_pos rfl]
  refine ⟨183, 184, ?_⟩
  rw [h50, h50]
  decide

/-- C17 witness: band numbers 2400 and 5000. -/
theorem C17_inverse_inconsistent_with_table_witness :
    (2400 : Nat) ≠ 5000 ∧
      ∃ c1 c2 : Nat, c1 ≠ c2 ∧ c1 ∈ channels5GHz ∧ c2 ∈ channels5GHz ∧
        MapChannelToFrequency 2400 5000 5000 c1 ≠ 0 ∧
        MapChannelToFrequency 2400 5000 5000 c2 ≠ 0 ∧
        MapFrequencyToChannel (MapChannelToFrequency 2400 5000 5000 c1) ≠ c1 ∧
        MapFrequencyToChannel (MapChannelToFrequency 2400 5000 5000 c2) ≠ c2 :=
  ⟨by decide, C17_inverse_inconsistent_with_table 2400 5000 (by decide)⟩

/-- C20: exact extent of the 5 GHz round trip.  For every channel `c` listed in the
table of `Map5000MHz`, the frequency maps back to `c` if and only if it is at
least 5000 MHz, which is the case exactly for the listed channels 7..165, where
the frequency is `5000 + 5*c`; the other listed channels are the eight entries
183, 184, 185, 187, 188, 189, 192, 196, where the frequency is `4000 + 5*c` and
the round trip returns `(c + 56) mod 256`, never `c`. -/
theorem C20_round_trip_5_GHz_extent (c : Nat) (hc : c ∈ channels5GHz) :
    (MapFrequencyToChannel (Map5000MHz c) = c ↔ 5000 ≤ Map5000MHz c) ∧
      (5000 ≤ Map5000MHz c ↔ (7 ≤ c ∧ c ≤ 165)) ∧
      (7 ≤ c ∧ c ≤ 165 → Map5000MHz c = 5000 + 5 * c) ∧
      (¬ (7 ≤ c ∧ c ≤ 165) ↔ c ∈ [183, 184, 185, 187, 188, 189, 192, 196]) ∧
      (c ∈ [183, 184, 185, 187, 188, 189, 192, 196] →
        Map5000MHz c = 4000 + 5 * c ∧
        MapFrequencyToChannel (Map5000MHz c) = (c + 56) % 256 ∧
        MapFrequencyToChannel (Map5000MHz c) ≠ c) := by
  revert c
  decide

/-- C20 witness: channel 183 (4915 MHz) maps back to 239; channel 36 maps back to 36. -/
theorem C20_round_trip_5_GHz_extent_witness :
    183 ∈ channels5GHz ∧ MapFrequencyToChannel (Map5000MHz 183) = (183 + 56) % 256 ∧
      36 ∈ channels5GHz ∧ MapFrequencyToChannel (Map5000MHz 36) = 36 :=
  ⟨by decide,
    ((C20_round_trip_5_GHz_extent 183 (by decide)).2.2.2.2 (by decide)).2.1,
    by decide,
    (C20_round_trip_5_GHz_extent 36 (by decide)).1.mpr (by decide)⟩

/-! ### GetEthFullDuplex -/

/-- C18: `GetEthFullDuplex` returns `CHIP_ERROR_OPEN_FAILED` when the socket cannot
be created and `CHIP_ERROR_READ_FAILED` when the ethtool query fails, leaving
`fullDuplex` as it was in both cases; otherwise it succeeds and `fullDuplex` is
true if and only if the `duplex` field of the reply equals `DUPLEX_FULL`. -/
theorem C18_GetEthFullDuplex (socketRet ioctlRet : Int) (ecmd : ethtool_cmd)
    (fullDuplex : Bool) :
    (socketRet < 0 →
        (GetEthFullDuplex socketRet ioctlRet ecmd fullDuplex).err = CHIP_ERROR_OPEN_FAILED ∧
        (GetEthFullDuplex socketRet ioctlRet ecmd fullDuplex).out = fullDuplex) ∧
      (0 ≤ socketRet → ioctlRet = -1 →
        (GetEthFullDuplex socketRet ioctlRet ecmd fullDuplex).err = CHIP_ERROR_READ_FAILED ∧
        (GetEthFullDuplex socketRet ioctlRet ecmd fullDuplex).out = fullDuplex) ∧
      (0 ≤ socketRet → ioctlRet ≠ -1 →
        (GetEthFullDuplex socketRet ioctlRet ecmd fullDuplex).err = CHIP_NO_ERROR ∧
        ((GetEthFullDuplex socketRet ioctlRet ecmd fullDuplex).out = true
          ↔ ecmd.duplex = DUPLEX_FULL)) := by
  refine ⟨?_, ?_, ?_⟩
  · intro hs
    simp [GetEthFullDuplex, hs]
  · intro hs hi
    simp [GetEthFullDuplex, not_lt.mpr hs, hi]
  · intro hs hi
    simp [GetEthFullDuplex, not_lt.mpr hs, hi]

/-- C18 witness: a full-duplex reply (`duplex = 1`) gives true; a half-duplex
reply (`duplex = 0`) and an unknown one (`duplex = 0xFF`) give false. -/
theorem C18_GetEthFullDuplex_witness :
    (GetEthFullDuplex 3 0 ⟨1000, 1, 0⟩ false).out = true ∧
      ¬ (GetEthFullDuplex 3 0 ⟨1000, 0, 0⟩ true).out = true ∧
      ¬ (GetEthFullDuplex 3 0 ⟨1000, 0xFF, 0⟩ true).out = true ∧
      (GetEthFullDuplex (-1) 0 ⟨1000, 1, 0⟩ false).err = CHIP_ERROR_OPEN_FAILED ∧
      (GetEthFullDuplex 3 (-1) ⟨1000, 1, 0⟩ false).err = CHIP_ERROR_READ_FAILED :=
  ⟨((C18_GetEthFullDuplex 3 0 ⟨1000, 1, 0⟩ false).2.2 (by decide) (by decide)).2.mpr
      (by decide),
    fun h => absurd (((C18_GetEthFullDuplex 3 0 ⟨1000, 0, 0⟩ true).2.2 (by decide)
      (by decide)).2.mp h) (by decide),
    fun h => absurd (((C18_GetEthFullDuplex 3 0 ⟨1000, 0xFF, 0⟩ true).2.2 (by decide)
      (by decide)).2.mp h) (by decide),
    ((C18_GetEthFullDuplex (-1) 0 ⟨1000, 1, 0⟩ false).1 (by decide)).1,
    ((C18_GetEthFullDuplex 3 (-1) ⟨1000, 1, 0⟩ false).2.1 (by decide) (by decide)).1⟩

/-! ### GetInterfaceConnectionType -/

theorem strncmp_eq_iff_starts (s lit : List Char) :
    strncmp_eq s lit lit.length = true ↔ lit <+: s := by
  unfold strncmp_eq
  rw [decide_eq_true_iff, List.prefix_iff_eq_take]
  exact eq_comm

/-- C15: `GetInterfaceConnectionType` as a function of the socket result, the
wireless-name probe, the interface name and the Ethernet-settings probe.  It is
Unspecified when the socket cannot be opened; WiFi exactly when the socket
opens and the wireless probe succeeds, whatever the name; Ethernet exactly when
the socket opens, the wireless probe fails, the name starts with `en` or `eth`
and the Ethernet probe succeeds; Unspecified in every other case.  The
Ethernet probe is issued exactly when the socket opens, the wireless probe
fails and the name starts with `en` or `eth`. -/
theorem C15_GetInterfaceConnectionType (ifname : List Char)
    (socketRet iwnameRet ethtoolRet : Int) :
    (socketRet = -1 →
        (GetInterfaceConnectionType ifname socketRet iwnameRet ethtoolRet).1
          = InterfaceTypeEnum.kUnspecified) ∧
      ((GetInterfaceConnectionType ifname socketRet iwnameRet ethtoolRet).1
          = InterfaceTypeEnum.kWiFi ↔ (socketRet ≠ -1 ∧ iwnameRet ≠ -1)) ∧
      ((GetInterfaceConnectionType ifname socketRet iwnameRet ethtoolRet).1
          = InterfaceTypeEnum.kEthernet ↔
        (socketRet ≠ -1 ∧ iwnameRet = -1 ∧
          (['e', 'n'] <+: ifname ∨ ['e', 't', 'h'] <+: ifname) ∧ ethtoolRet ≠ -1)) ∧
      ((GetInterfaceConnectionType ifname socketRet iwnameRet ethtoolRet).1
          = InterfaceTypeEnum.kUnspecified ↔
        ¬ (socketRet ≠ -1 ∧ iwnameRet ≠ -1) ∧
        ¬ (socketRet ≠ -1 ∧ iwnameRet = -1 ∧
          (['e', 'n'] <+: ifname ∨ ['e', 't', 'h'] <+: ifname) ∧ ethtoolRet ≠ -1)) ∧
      (SysCall.ioctl Request.SIOCETHTOOL ethtoolRet
          ∈ (GetInterfaceConnectionType ifname socketRet iwnameRet ethtoolRet).2 ↔
        (socketRet ≠ -1 ∧ iwnameRet = -1 ∧
          (['e', 'n'] <+: ifname ∨ ['e', 't', 'h'] <+: ifname))) := by
  have hen := strncmp_eq_iff_starts ifname ['e', 'n']
  have heth := strncmp_eq_iff_starts ifname ['e', 't', 'h']
  simp only [List.length_cons, List.length_nil, Nat.zero_add, Nat.reduceAdd] at hen heth
  rw [← hen, ← heth]
  unfold GetInterfaceConnectionType
  by_cases hs : socketRet = -1 <;> by_cases hw : iwnameRet = -1 <;>
    by_cases h1 : strncmp_eq ifname ['e', 'n'] 2 = true <;>
    by_cases h2 : strncmp_eq ifname ['e', 't', 'h'] 3 = true <;>
    by_cases he : ethtoolRet = -1 <;>
    simp [hs, hw, h1, h2, he]

/-- C15 witness: `lo` and `wlan0` are not classified Ethernet even when both
probes would answer; `eth0` and `enp3s0` are, once the wireless probe fails. -/
theorem C15_GetInterfaceConnectionType_witness :
    ¬ (GetInterfaceConnectionType ['l', 'o'] 3 (-1) 0).1 = InterfaceTypeEnum.kEthernet ∧
      ¬ (GetInterfaceConnectionType ['w', 'l', 'a', 'n', '0'] 3 (-1) 0).1
        = InterfaceTypeEnum.kEthernet ∧
      (GetInterfaceConnectionType ['w', 'l', 'a', 'n', '0'] 3 0 0).1 = InterfaceTypeEnum.kWiFi ∧
      (GetInterfaceConnectionType ['e', 't', 'h', '0'] 3 (-1) 0).1
        = InterfaceTypeEnum.kEthernet ∧
      (GetInterfaceConnectionType ['e', 't', 'h', '0'] (-1) 0 0).1
        = InterfaceTypeEnum.kUnspecified :=
  ⟨fun h => absurd ((C15_GetInterfaceConnectionType ['l', 'o'] 3 (-1) 0).2.2.1.mp h).2.2.1
      (by decide),
    fun h => absurd
      ((C15_GetInterfaceConnectionType ['w', 'l', 'a', 'n', '0'] 3 (-1) 0).2.2.1.mp h).2.2.1
      (by decide),
    (C15_GetInterfaceConnectionType ['w', 'l', 'a', 'n', '0'] 3 0 0).2.1.mpr
      ⟨by decide, by decide⟩,
    (C15_GetInterfaceConnectionType ['e', 't', 'h', '0'] 3 (-1) 0).2.2.1.mpr
      ⟨by decide, by decide, by decide, by decide⟩,
    (C15_GetInterfaceConnectionType ['e', 't', 'h', '0'] (-1) 0 0).1 (by decide)⟩

/-! ### Address enumeration: failure and success -/

theorem loopIPv4_no_match (kMax : Nat) (ifname : List Char) (l : List ifaddrs) (index : Nat)
    (ifp : NetworkInterface) (written : List Nat) (h : matchingIPv4 ifname l = []) :
    GetInterfaceIPv4Addrs.loop kMax ifname l index ifp written = (index, ifp, written) := by
  induction l generalizing index ifp written with
  | nil => rfl
  | cons ifa rest ih =>
    unfold GetInterfaceIPv4Addrs.loop
    cases hA : ifa.ifa_addr with
    | none =>
      have e : matchIPv4 ifname ifa = none := by simp [matchIPv4, hA]
      simp only [matchingIPv4, List.filterMap_cons, e] at h
      exact ih index ifp written h
    | some sa =>
      cases sa with
      | sockaddr_in sin_addr =>
        by_cases hn : ifname = ifa.ifa_name
        · have e : matchIPv4 ifname ifa = some sin_addr := by simp [matchIPv4, hA, hn]
          simp only [matchingIPv4, List.filterMap_cons, e] at h
          exact absurd h (List.cons_ne_nil _ _)
        · have e : matchIPv4 ifname ifa = none := by simp [matchIPv4, hA, hn]
          simp only [matchingIPv4, List.filterMap_cons, e] at h
          simp only [if_neg hn]
          exact ih index ifp written h
      | sockaddr_in6 sin6_addr =>
        have e : matchIPv4 ifname ifa = none := by simp [matchIPv4, hA]
        simp only [matchingIPv4, List.filterMap_cons, e] at h
        exact ih index ifp written h
      | other fam =>
        have e : matchIPv4 ifname ifa = none := by simp [matchIPv4, hA]
        simp only [matchingIPv4, List.filterMap_cons, e] at h
        exact ih index ifp written h

theorem loopIPv4_zero_max (ifname : List Char) (l : List ifaddrs)
    (ifp : NetworkInterface) (written : List Nat) (h : matchingIPv4 ifname l ≠ []) :
    (GetInterfaceIPv4Addrs.loop 0 ifname l 0 ifp written).1 = 1 := by
  induction l generalizing ifp written with
  | nil => exact absurd rfl h
  | cons ifa rest ih =>
    unfold GetInterfaceIPv4Addrs.loop
    cases hA : ifa.ifa_addr with
    | none =>
      have e : matchIPv4 ifname ifa = none := by simp [matchIPv4, hA]
      simp only [matchingIPv4, List.filterMap_cons, e] at h
      exact ih ifp written h
    | some sa =>
      cases sa with
      | sockaddr_in sin_addr =>
        by_cases hn : ifname = ifa.ifa_name
        · simp [hn]
        · have e : matchIPv4 ifname ifa = none := by simp [matchIPv4, hA, hn]
          simp only [matchingIPv4, List.filterMap_cons, e] at h
          simp only [if_neg hn]
          exact ih ifp written h
      | sockaddr_in6 sin6_addr =>
        have e : matchIPv4 ifname ifa = none := by simp [matchIPv4, hA]
        simp only [matchingIPv4, List.filterMap_cons, e] at h
        exact ih ifp written h
      | other fam =>
        have e : matchIPv4 ifname ifa = none := by simp [matchIPv4, hA]
        simp only [matchingIPv4, List.filterMap_cons, e] at h
        exact ih ifp written h

theorem GetInterfaceIPv4Addrs_failure (kMax : Nat) (ifname : List Char) (ret : Int)
    (l : List ifaddrs) (size : Nat) (ifp : NetworkInterface)
    (h : ret = -1 ∨ matchingIPv4 ifname l = []) :
    (GetInterfaceIPv4Addrs kMax ifname ret l size ifp).err = CHIP_ERROR_READ_FAILED ∧
      (GetInterfaceIPv4Addrs kMax ifname ret l size ifp).out.size = size ∧
      (GetInterfaceIPv4Addrs kMax ifname ret l size ifp).out.ifp = ifp ∧
      (GetInterfaceIPv4Addrs kMax ifname ret l size ifp).out.written = [] := by
  unfold GetInterfaceIPv4Addrs
  by_cases hret : ret = -1
  · rw [if_pos hret]
    exact ⟨rfl, rfl, rfl, rfl⟩
  · have hm : matchingIPv4 ifname l = [] := h.resolve_left hret
    rw [if_neg hret, loopIPv4_no_match kMax ifname l 0 ifp [] hm]
    exact ⟨rfl, rfl, rfl, rfl⟩

theorem GetInterfaceIPv4Addrs_success (kMax : Nat) (ifname : List Char) (ret : Int)
    (l : List ifaddrs) (size : Nat) (ifp : NetworkInterface) (h255 : kMax ≤ 255)
    (hret : ret ≠ -1) (hm : matchingIPv4 ifname l ≠ []) :
    (GetInterfaceIPv4Addrs kMax ifname ret l size ifp).err = CHIP_NO_ERROR ∧
      1 ≤ (GetInterfaceIPv4Addrs kMax ifname ret l size ifp).out.size := by
  have hlen : 1 ≤ (matchingIPv4 ifname l).length := by
    cases hM : matchingIPv4 ifname l with
    | nil => exact absurd hM hm
    | cons a as => simp
  have hpos : (GetInterfaceIPv4Addrs.loop kMax ifname l 0 ifp []).1 > 0 := by
    by_cases hk : kMax = 0
    · subst hk
      rw [loopIPv4_zero_max ifname l ifp [] hm]
      exact Nat.one_pos
    · rw [loopIPv4_eq_storeAll kMax ifname h255 l 0 ifp [] (by omega), storeAll_index,
        List.length_take]
      omega
  unfold GetInterfaceIPv4Addrs
  rw [if_neg hret]
  simp only [if_pos hpos]
  exact ⟨trivial, hpos⟩

theorem loopIPv6_no_match (kMax : Nat) (ifname : List Char) (l : List ifaddrs) (index : Nat)
    (ifp : NetworkInterface) (written : List Nat) (h : matchingIPv6 ifname l = []) :
    GetInterfaceIPv6Addrs.loop kMax ifname l index ifp written = (index, ifp, written) := by
  induction l generalizing index ifp written with
  | nil => rfl
  | cons ifa rest ih =>
    unfold GetInterfaceIPv6Addrs.loop
    cases hA : ifa.ifa_addr with
    | none =>
      have e : matchIPv6 ifname ifa = none := by simp [matchIPv6, hA]
      simp only [matchingIPv6, List.filterMap_cons, e] at h
      exact ih index ifp written h
    | some sa =>
      cases sa with
      | sockaddr_in6 sin_addr =>
        by_cases hn : ifname = ifa.ifa_name
        · have e : matchIPv6 ifname ifa = some sin_addr := by simp [matchIPv6, hA, hn]
          simp only [matchingIPv6, List.filterMap_cons, e] at h
          exact absurd h (List.cons_ne_nil _ _)
        · have e : matchIPv6 ifname ifa = none := by simp [matchIPv6, hA, hn]
          simp only [matchingIPv6, List.filterMap_cons, e] at h
          simp only [if_neg hn]
          exact ih index ifp written h
      | sockaddr_in sin6_addr =>
        have e : matchIPv6 ifname ifa = none := by simp [matchIPv6, hA]
        simp only [matchingIPv6, List.filterMap_cons, e] at h
        exact ih index ifp written h
      | other fam =>
        have e : matchIPv6 ifname ifa = none := by simp [matchIPv6, hA]
        simp only [matchingIPv6, List.filterMap_cons, e] at h
        exact ih index ifp written h

theorem loopIPv6_zero_max (ifname : List Char) (l : List ifaddrs)
    (ifp : NetworkInterface) (written : List Nat) (h : matchingIPv6 ifname l ≠ []) :
    (GetInterfaceIPv6Addrs.loop 0 ifname l 0 ifp written).1 = 1 := by
  induction l generalizing ifp written with
  | nil => exact absurd rfl h
  | cons ifa rest ih =>
    unfold GetInterfaceIPv6Addrs.loop
    cases hA : ifa.ifa_addr with
    | none =>
      have e : matchIPv6 ifname ifa = none := by simp [matchIPv6, hA]
      simp only [matchingIPv6, List.filterMap_cons, e] at h
      exact ih ifp written h
    | some sa =>
      cases sa with
      | sockaddr_in6 sin_addr =>
        by_cases hn : ifname = ifa.ifa_name
        · simp [hn]
        · have e : matchIPv6 ifname ifa = none := by simp [matchIPv6, hA, hn]
          simp only [matchingIPv6, List.filterMap_cons, e] at h
          simp only [if_neg hn]
          exact ih ifp written h
      | sockaddr_in sin6_addr =>
        have e : matchIPv6 ifname ifa = none := by simp [matchIPv6, hA]
        simp only [matchingIPv6, List.filterMap_cons, e] at h
        exact ih ifp written h
      | other fam =>
        have e : matchIPv6 ifname ifa = none := by simp [matchIPv6, hA]
        simp only [matchingIPv6, List.filterMap_cons, e] at h
        exact ih ifp written h

theorem GetInterfaceIPv6Addrs_failure (kMax : Nat) (ifname : List Char) (ret : Int)
    (l : List ifaddrs) (size : Nat) (ifp : NetworkInterface)
    (h : ret = -1 ∨ matchingIPv6 ifname l = []) :
    (GetInterfaceIPv6Addrs kMax ifname ret l size ifp).err = CHIP_ERROR_READ_FAILED ∧
      (GetInterfaceIPv6Addrs kMax ifname ret l size ifp).out.size = size ∧
      (GetInterfaceIPv6Addrs kMax ifname ret l size ifp).out.ifp = ifp ∧
      (GetInterfaceIPv6Addrs kMax ifname ret l size ifp).out.written = [] := by
  unfold GetInterfaceIPv6Addrs
  by_cases hret : ret = -1
  · rw [if_pos hret]
    exact ⟨rfl, rfl, rfl, rfl⟩
  · have hm : matchingIPv6 ifname l = [] := h.resolve_left hret
    rw [if_neg hret, loopIPv6_no_match kMax ifname l 0 ifp [] hm]
    exact ⟨rfl, rfl, rfl, rfl⟩

theorem GetInterfaceIPv6Addrs_success (kMax : Nat) (ifname : List Char) (ret : Int)
    (l : List ifaddrs) (size : Nat) (ifp : NetworkInterface) (h255 : kMax ≤ 255)
    (hret : ret ≠ -1) (hm : matchingIPv6 ifname l ≠ []) :
    (GetInterfaceIPv6Addrs kMax ifname ret l size ifp).err = CHIP_NO_ERROR ∧
      1 ≤ (GetInterfaceIPv6Addrs kMax ifname ret l size ifp).out.size := by
  have hlen : 1 ≤ (matchingIPv6 ifname l).length := by
    cases hM : matchingIPv6 ifname l with
    | nil => exact absurd hM hm
    | cons a as => simp
  have hpos : (GetInterfaceIPv6Addrs.loop kMax ifname l 0 ifp []).1 > 0 := by
    by_cases hk : kMax = 0
    · subst hk
      rw [loopIPv6_zero_max ifname l ifp [] hm]
      exact Nat.one_pos
    · rw [loopIPv6_eq_storeAll kMax ifname h255 l 0 ifp [] (by omega), storeAll_index,
        List.length_take]
      omega
  unfold GetInterfaceIPv6Addrs
  rw [if_neg hret]
  simp only [if_pos hpos]
  exact ⟨trivial, hpos⟩

/-- C14: for a maximum count of at most 255, `GetInterfaceIPv4Addrs` and
`GetInterfaceIPv6Addrs` fail with `CHIP_ERROR_READ_FAILED` if and only if
`getifaddrs` fails or the list has no node of the requested family whose name
is the requested one; on that failure `size` and the record are left as they
were and no row is stored to; in every other case the call succeeds and `size`
is written with a count of at least 1. -/
theorem C14_address_enumeration_failure (kMax : Nat) (ifname : List Char) (ret : Int)
    (l : List ifaddrs) (size : Nat) (ifp : NetworkInterface) (h255 : kMax ≤ 255) :
    (((GetInterfaceIPv4Addrs kMax ifname ret l size ifp).err = CHIP_ERROR_READ_FAILED ↔
          (ret = -1 ∨ (matchingIPv4 ifname l).length = 0)) ∧
        ((GetInterfaceIPv4Addrs kMax ifname ret l size ifp).err = CHIP_ERROR_READ_FAILED →
          (GetInterfaceIPv4Addrs kMax ifname ret l size ifp).out.size = size ∧
          (GetInterfaceIPv4Addrs kMax ifname ret l size ifp).out.ifp = ifp ∧
          (GetInterfaceIPv4Addrs kMax ifname ret l size ifp).out.written = []) ∧
        ((GetInterfaceIPv4Addrs kMax ifname ret l size ifp).err ≠ CHIP_ERROR_READ_FAILED →
          (GetInterfaceIPv4Addrs kMax ifname ret l size ifp).err = CHIP_NO_ERROR ∧
          1 ≤ (GetInterfaceIPv4Addrs kMax ifname ret l size ifp).out.size)) ∧
      (((GetInterfaceIPv6Addrs kMax ifname ret l size ifp).err = CHIP_ERROR_READ_FAILED ↔
          (ret = -1 ∨ (matchingIPv6 ifname l).length = 0)) ∧
        ((GetInterfaceIPv6Addrs kMax ifname ret l size ifp).err = CHIP_ERROR_READ_FAILED →
          (GetInterfaceIPv6Addrs kMax ifname ret l size ifp).out.size = size ∧
          (GetInterfaceIPv6Addrs kMax ifname ret l size ifp).out.ifp = ifp ∧
          (GetInterfaceIPv6Addrs kMax ifname ret l size ifp).out.written = []) ∧
        ((GetInterfaceIPv6Addrs kMax ifname ret l size ifp).err ≠ CHIP_ERROR_READ_FAILED →
          (GetInterfaceIPv6Addrs kMax ifname ret l size ifp).err = CHIP_NO_ERROR ∧
          1 ≤ (GetInterfaceIPv6Addrs kMax ifname ret l size ifp).out.size)) := by
  constructor
  · by_cases hc : ret = -1 ∨ matchingIPv4 ifname l = []
    · have hf := GetInterfaceIPv4Addrs_failure kMax ifname ret l size ifp hc
      have hc2 : ret = -1 ∨ (matchingIPv4 ifname l).length = 0 :=
        hc.imp id (fun h => by rw [h]; rfl)
      refine ⟨⟨fun _ => hc2, fun _ => hf.1⟩, fun _ => hf.2, fun h => absurd hf.1 h⟩
    · have hret : ret ≠ -1 := fun h => hc (Or.inl h)
      have hm : matchingIPv4 ifname l ≠ [] := fun h => hc (Or.inr h)
      have hs := GetInterfaceIPv4Addrs_success kMax ifname ret l size ifp h255 hret hm
      have hne : (GetInterfaceIPv4Addrs kMax ifname ret l size ifp).err
          ≠ CHIP_ERROR_READ_FAILED := by
        rw [hs.1]
        decide
      have hc3 : ¬ (ret = -1 ∨ (matchingIPv4 ifname l).length = 0) := by
        intro h
        exact hc (h.imp id List.length_eq_zero.mp)
      refine ⟨⟨fun h => absurd h hne, fun h => absurd h hc3⟩, fun h => absurd h hne, fun _ => hs⟩
  · by_cases hc : ret = -1 ∨ matchingIPv6 ifname l = []
    · have hf := GetInterfaceIPv6Addrs_failure kMax ifname ret l size ifp hc
      have hc2 : ret = -1 ∨ (matchingIPv6 ifname l).length = 0 :=
        hc.imp id (fun h => by rw [h]; rfl)
      refine ⟨⟨fun _ => hc2, fun _ => hf.1⟩, fun _ => hf.2, fun h => absurd hf.1 h⟩
    · have hret : ret ≠ -1 := fun h => hc (Or.inl h)
      have hm : matchingIPv6 ifname l ≠ [] := fun h => hc (Or.inr h)
      have hs := GetInterfaceIPv6Addrs_success kMax ifname ret l size ifp h255 hret hm
      have hne : (GetInterfaceIPv6Addrs kMax ifname ret l size ifp).err
          ≠ CHIP_ERROR_READ_FAILED := by
        rw [hs.1]
        decide
      have hc3 : ¬ (ret = -1 ∨ (matchingIPv6 ifname l).length = 0) := by
        intro h
        exact hc (h.imp id List.length_eq_zero.mp)
      refine ⟨⟨fun h => absurd h hne, fun h => absurd h hc3⟩, fun h => absurd h hne, fun _ => hs⟩

/-- C14 witness, with a maximum of 4: a list holding only IPv6 nodes of `wlan0`
makes the IPv4 enumeration of `wlan0` fail with `CHIP_ERROR_READ_FAILED` and
leaves `size` at 9; a failing `getifaddrs` does the same for IPv6; a list with
one IPv4 node of `wlan0` does not fail. -/
theorem C14_address_enumeration_failure_witness :
    (GetInterfaceIPv4Addrs 4 ['w', 'l', 'a', 'n', '0'] 0 [wlan0IPv6 1, wlan0IPv6 2] 9
        emptyRecord).err = CHIP_ERROR_READ_FAILED ∧
      (GetInterfaceIPv4Addrs 4 ['w', 'l', 'a', 'n', '0'] 0 [wlan0IPv6 1, wlan0IPv6 2] 9
        emptyRecord).out.size = 9 ∧
      (GetInterfaceIPv6Addrs 4 ['w', 'l', 'a', 'n', '0'] (-1) [wlan0IPv6 1] 9
        emptyRecord).err = CHIP_ERROR_READ_FAILED ∧
      ¬ (GetInterfaceIPv4Addrs 4 ['w', 'l', 'a', 'n', '0'] 0 [wlan0IPv6 1, wlan0IPv4 2] 9
        emptyRecord).err = CHIP_ERROR_READ_FAILED := by
  have h1 := (C14_address_enumeration_failure 4 ['w', 'l', 'a', 'n', '0'] 0
    [wlan0IPv6 1, wlan0IPv6 2] 9 emptyRecord (by decide)).1
  have h2 := (C14_address_enumeration_failure 4 ['w', 'l', 'a', 'n', '0'] (-1)
    [wlan0IPv6 1] 9 emptyRecord (by decide)).2
  have h3 := (C14_address_enumeration_failure 4 ['w', 'l', 'a', 'n', '0'] 0
    [wlan0IPv6 1, wlan0IPv4 2] 9 emptyRecord (by decide)).1
  have e1 := h1.1.mpr (Or.inr (by decide))
  refine ⟨e1, (h1.2.1 e1).1, h2.1.mpr (Or.inl rfl), ?_⟩
  intro h
  exact absurd (h3.1.mp h) (by decide)

/-! ### binary64 rounding -/

theorem roundHalfEven_eq_floor_or_succ (y : ℚ) :
    roundHalfEven y = ⌊y⌋ ∨ roundHalfEven y = ⌊y⌋ + 1 := by
  unfold roundHalfEven
  split_ifs <;> simp

theorem le_roundHalfEven (y : ℚ) (z : Int) (h : (z : ℚ) ≤ y) : z ≤ roundHalfEven y := by
  have hz : z ≤ ⌊y⌋ := Int.le_floor.mpr h
  rcases roundHalfEven_eq_floor_or_succ y with e | e <;> rw [e] <;> omega

theorem roundHalfEven_le (y : ℚ) (z : Int) (h : y ≤ (z : ℚ)) : roundHalfEven y ≤ z := by
  have h1 : ((⌊y⌋ : Int) : ℚ) ≤ y := Int.floor_le y
  have hfz : ⌊y⌋ ≤ z := by
    have h2 : ((⌊y⌋ : Int) : ℚ) ≤ (z : ℚ) := le_trans h1 h
    exact_mod_cast h2
  by_cases hlt : ⌊y⌋ < z
  · rcases roundHalfEven_eq_floor_or_succ y with e | e <;> rw [e] <;> omega
  · have he : ⌊y⌋ = z := le_antisymm hfz (not_lt.mp hlt)
    have hy : y - ((⌊y⌋ : Int) : ℚ) ≤ 0 := by
      rw [he]
      linarith
    unfold roundHalfEven
    rw [if_pos (by linarith)]
    exact hfz

theorem ulp_pos (x : ℚ) : 0 < ulp x := by
  unfold ulp
  exact zpow_pos (by norm_num) _

theorem ulp_neg (x : ℚ) : ulp (-x) = ulp x := by
  unfold ulp ulpExp
  rw [abs_neg]

theorem ulpExp_le (x : ℚ) (s : Int) (hs : -1022 ≤ s) (h0 : x ≠ 0)
    (hx : |x| < (2 : ℚ) ^ (s + 1)) : ulpExp x ≤ s - 52 := by
  have hpos : 0 < |x| := abs_pos.mpr h0
  have hx2 : |x| < ((2 : Nat) : ℚ) ^ (s + 1) := by exact_mod_cast hx
  have hlog : Int.log 2 |x| < s + 1 := (Int.lt_zpow_iff_log_lt (by norm_num) hpos).mp hx2
  unfold ulpExp
  have hm : max (Int.log 2 |x|) (-1022) ≤ s := max_le (by omega) hs
  omega

theorem dyadic_multiple (j t E : Int) (h : E ≤ t) :
    ∃ i : Int, (j : ℚ) * (2 : ℚ) ^ t = (i : ℚ) * (2 : ℚ) ^ E := by
  refine ⟨j * 2 ^ (t - E).toNat, ?_⟩
  have ht : t = ((t - E).toNat : Int) + E := by
    rw [Int.toNat_of_nonneg (by omega)]
    omega
  have h2 : (2 : ℚ) ^ t = (2 : ℚ) ^ (t - E).toNat * (2 : ℚ) ^ E := by
    conv_lhs => rw [ht]
    rw [zpow_add₀ (by norm_num), zpow_natCast]
  rw [h2]
  push_cast
  ring

theorem roundedMagnitude_lower (x : ℚ) (i : Int) (h : (i : ℚ) * ulp x ≤ |x|) :
    (i : ℚ) * ulp x ≤ roundedMagnitude x := by
  have hu := ulp_pos x
  have h1 : (i : ℚ) ≤ |x| / ulp x := (le_div_iff₀ hu).mpr h
  have h2 : i ≤ roundHalfEven (|x| / ulp x) := le_roundHalfEven _ _ h1
  have h3 : (i : ℚ) ≤ (roundHalfEven (|x| / ulp x) : ℚ) := by exact_mod_cast h2
  unfold roundedMagnitude
  exact mul_le_mul_of_nonneg_right h3 (le_of_lt hu)

theorem roundedMagnitude_upper (x : ℚ) (i : Int) (h : |x| ≤ (i : ℚ) * ulp x) :
    roundedMagnitude x ≤ (i : ℚ) * ulp x := by
  have hu := ulp_pos x
  have h1 : |x| / ulp x ≤ (i : ℚ) := (div_le_iff₀ hu).mpr h
  have h2 : roundHalfEven (|x| / ulp x) ≤ i := roundHalfEven_le _ _ h1
  have h3 : (roundHalfEven (|x| / ulp x) : ℚ) ≤ (i : ℚ) := by exact_mod_cast h2
  unfold roundedMagnitude
  exact mul_le_mul_of_nonneg_right h3 (le_of_lt hu)

theorem binary64_exact_of_multiple (x : ℚ) (i : Int) (h : |x| = (i : ℚ) * ulp x)
    (hlt : |x| < (2 : ℚ) ^ (1024 : Nat)) : binary64 x = Double.finite x := by
  have hr : roundedMagnitude x = |x| :=
    le_antisymm (h ▸ roundedMagnitude_upper x i (le_of_eq h))
      (h ▸ roundedMagnitude_lower x i (le_of_eq h.symm))
  unfold binary64
  rw [hr, if_neg (not_le.mpr hlt)]
  congr 1
  by_cases hx : x < 0
  · rw [if_pos hx, abs_of_neg hx, neg_neg]
  · rw [if_neg hx, abs_of_nonneg (not_lt.mp hx)]

/-- A value `j * 2^t` with `|j| < 2^53`, `t ≥ -1074` and magnitude below `2^1024`
is a binary64 value: rounding leaves it unchanged. -/
theorem binary64_exact_dyadic (j t : Int) (hj : |j| < 2 ^ 53) (ht : -1074 ≤ t)
    (hlt : |(j : ℚ) * (2 : ℚ) ^ t| < (2 : ℚ) ^ (1024 : Nat)) :
    binary64 ((j : ℚ) * (2 : ℚ) ^ t) = Double.finite ((j : ℚ) * (2 : ℚ) ^ t) := by
  have h2t : (0 : ℚ) < (2 : ℚ) ^ t := zpow_pos (by norm_num) _
  have habs : |(j : ℚ) * (2 : ℚ) ^ t| = ((|j| : Int) : ℚ) * (2 : ℚ) ^ t := by
    rw [abs_mul, abs_of_pos h2t, Int.cast_abs]
  by_cases h0 : (j : ℚ) * (2 : ℚ) ^ t = 0
  · refine binary64_exact_of_multiple _ 0 ?_ hlt
    rw [h0]
    simp
  · have hjq : ((|j| : Int) : ℚ) < (2 : ℚ) ^ (53 : Int) := by
      have h1 : ((|j| : Int) : ℚ) < (((2 : Int) ^ 53 : Int) : ℚ) := Int.cast_lt.mpr hj
      have e : (((2 : Int) ^ 53 : Int) : ℚ) = (2 : ℚ) ^ (53 : Int) := by norm_num
      rw [e] at h1
      exact h1
    have hlt2 : |(j : ℚ) * (2 : ℚ) ^ t| < (2 : ℚ) ^ (t + 52 + 1) := by
      rw [habs]
      have e : (2 : ℚ) ^ (t + 52 + 1) = (2 : ℚ) ^ (53 : Int) * (2 : ℚ) ^ t := by
        rw [← zpow_add₀ (by norm_num)]
        congr 1
        omega
      rw [e]
      exact mul_lt_mul_of_pos_right hjq h2t
    have hE : ulpExp ((j : ℚ) * (2 : ℚ) ^ t) ≤ t := by
      have := ulpExp_le _ (t + 52) (by omega) h0 hlt2
      omega
    obtain ⟨i, hi⟩ := dyadic_multiple |j| t (ulpExp ((j : ℚ) * (2 : ℚ) ^ t)) hE
    refine binary64_exact_of_multiple _ i ?_ hlt
    rw [habs, hi]
    rfl

/-- An integer of magnitude below `2^53` is a binary64 value. -/
theorem binary64_exact_int (z : Int) (hz : |z| < 2 ^ 53) :
    binary64 (z : ℚ) = Double.finite (z : ℚ) := by
  have h := binary64_exact_dyadic z 0 hz (by decide) (by
    rw [zpow_zero, mul_one]
    have h1 : |(z : ℚ)| < ((2 ^ 53 : Int) : ℚ) := by
      rw [← Int.cast_abs]
      exact_mod_cast hz
    have h2 : (((2 ^ 53 : Int) : ℚ)) < (2 : ℚ) ^ (1024 : Nat) := by norm_num
    exact lt_trans h1 h2)
  rw [zpow_zero, mul_one] at h
  exact h

/-- A value of at least `2^s`, `s ≥ -1022`, rounds to a value of at least `2^s`
(or to the positive infinity). -/
theorem binary64_atLeast_pow (x : ℚ) (s : Int) (hs : -1022 ≤ s) (hx : (2 : ℚ) ^ s ≤ x) :
    (binary64 x).atLeast ((2 : ℚ) ^ s) := by
  have h2s : (0 : ℚ) < (2 : ℚ) ^ s := zpow_pos (by norm_num) _
  have hpos : 0 < x := lt_of_lt_of_le h2s hx
  have habs : |x| = x := abs_of_pos hpos
  have hks : s ≤ Int.log 2 x := by
    have hx2 : ((2 : Nat) : ℚ) ^ s ≤ x := by exact_mod_cast hx
    exact (Int.zpow_le_iff_le_log (by norm_num) hpos).mp hx2
  have hE : ulpExp x = Int.log 2 x - 52 := by
    unfold ulpExp
    rw [habs, max_eq_left (by omega)]
  have hk : (2 : ℚ) ^ Int.log 2 x ≤ x := by
    have := Int.zpow_log_le_self (b := 2) (r := x) (by norm_num) hpos
    exact_mod_cast this
  have hmul : (((2 ^ 52 : Int) : Int) : ℚ) * ulp x = (2 : ℚ) ^ Int.log 2 x := by
    unfold ulp
    rw [hE]
    have e : Int.log 2 x = (52 : Int) + (Int.log 2 x - 52) := by omega
    conv_rhs => rw [e, zpow_add₀ (by norm_num)]
    norm_num
  have hlow : (2 : ℚ) ^ Int.log 2 x ≤ roundedMagnitude x := by
    rw [← hmul]
    apply roundedMagnitude_lower
    rw [hmul, habs]
    exact hk
  have hge : (2 : ℚ) ^ s ≤ roundedMagnitude x :=
    le_trans (zpow_le_zpow_right₀ (by norm_num) hks) hlow
  unfold binary64
  have hn : ¬ x < 0 := not_lt.mpr (le_of_lt hpos)
  by_cases hov : (2 : ℚ) ^ (1024 : Nat) ≤ roundedMagnitude x
  · rw [if_pos hov]
    simp [Double.atLeast, hn]
  · rw [if_neg hov, if_neg hn]
    exact hge

/-- Bounds on the rounding of a non-negative value by two multiples of its
spacing: the rounded value lies between them. -/
theorem binary64_between (x : ℚ) (hx : 0 ≤ x) (a b : Int) (ha : (a : ℚ) * ulp x ≤ x)
    (hb : x ≤ (b : ℚ) * ulp x) (hlt : (b : ℚ) * ulp x < (2 : ℚ) ^ (1024 : Nat)) :
    ∃ r : ℚ, binary64 x = Double.finite r ∧ (a : ℚ) * ulp x ≤ r ∧ r ≤ (b : ℚ) * ulp x := by
  have habs : |x| = x := abs_of_nonneg hx
  have hlo := roundedMagnitude_lower x a (by rw [habs]; exact ha)
  have hup := roundedMagnitude_upper x b (by rw [habs]; exact hb)
  refine ⟨roundedMagnitude x, ?_, hlo, hup⟩
  unfold binary64
  rw [if_neg (not_le.mpr (lt_of_le_of_lt hup hlt)), if_neg (not_lt.mpr hx)]

/-! ### ConvertFrequenceToFloat and the binary64 quotient -/

theorem ConvertFrequenceToFloat_loop_exact (n : Nat) (p : Int) (h : |p| * 10 ^ n < 2 ^ 53) :
    ConvertFrequenceToFloat.loop n (Double.finite (p : ℚ))
      = Double.finite ((p : ℚ) * 10 ^ n) := by
  induction n generalizing p with
  | zero => simp [ConvertFrequenceToFloat.loop]
  | succ n ih =>
    have hpos : (0 : Int) < 10 ^ n := by positivity
    have h10 : |p * 10| * 10 ^ n < 2 ^ 53 := by
      rw [abs_mul]
      have e : |p| * |(10 : Int)| * 10 ^ n = |p| * 10 ^ (n + 1) := by
        rw [abs_of_pos (by norm_num : (0 : Int) < 10), pow_succ]
        ring
      rw [e]
      exact h
    have hsmall : |p * 10| < 2 ^ 53 := by
      have h1 : |p * 10| * 1 ≤ |p * 10| * 10 ^ n :=
        mul_le_mul_of_nonneg_left (by omega) (abs_nonneg _)
      omega
    have hb : binary64 ((p : ℚ) * 10) = Double.finite (((p * 10 : Int) : ℚ)) := by
      have := binary64_exact_int (p * 10) hsmall
      rw [← this]
      push_cast
      rfl
    rw [ConvertFrequenceToFloat.loop]
    simp only [Double.mul]
    rw [hb, ih (p * 10) h10]
    congr 1
    push_cast
    ring

theorem ConvertFrequenceToFloat_loop_atLeast (n : Nat) (d : Double)
    (h : d.atLeast ((2 : ℚ) ^ (53 : Int))) :
    (ConvertFrequenceToFloat.loop n d).atLeast ((2 : ℚ) ^ (53 : Int)) := by
  induction n generalizing d with
  | zero => exact h
  | succ n ih =>
    rw [ConvertFrequenceToFloat.loop]
    apply ih
    cases d with
    | finite p =>
      simp only [Double.atLeast] at h
      simp only [Double.mul]
      apply binary64_atLeast_pow _ 53 (by decide)
      have hp : (0 : ℚ) ≤ p := le_trans (by positivity) h
      linarith
    | infinite negative => exact h

theorem ConvertFrequenceToFloat_loop_large (n : Nat) (p : Nat) (hp : p < 2 ^ 53)
    (h : 2 ^ 53 ≤ p * 10 ^ n) :
    (ConvertFrequenceToFloat.loop n (Double.finite (p : ℚ))).atLeast ((2 : ℚ) ^ (53 : Int)) := by
  induction n generalizing p with
  | zero =>
    simp only [pow_zero, mul_one] at h
    omega
  | succ n ih =>
    rw [ConvertFrequenceToFloat.loop]
    simp only [Double.mul]
    have h2 : 2 ^ 53 ≤ p * 10 * 10 ^ n := by
      rw [pow_succ] at h
      calc 2 ^ 53 ≤ p * (10 ^ n * 10) := h
        _ = p * 10 * 10 ^ n := by ring
    by_cases hs : p * 10 < 2 ^ 53
    · have hb : binary64 ((p : ℚ) * 10) = Double.finite (((p * 10 : Nat) : ℚ)) := by
        have := binary64_exact_int ((p * 10 : Nat) : Int) (by
          rw [abs_of_nonneg (by positivity)]
          exact_mod_cast hs)
        rw [Int.cast_natCast] at this
        rw [← this]
        push_cast
        rfl
      rw [hb]
      exact ih (p * 10) hs h2
    · apply ConvertFrequenceToFloat_loop_atLeast
      apply binary64_atLeast_pow _ 53 (by decide)
      have hq : ((2 ^ 53 : Nat) : ℚ) ≤ ((p * 10 : Nat) : ℚ) := by
        exact_mod_cast (not_lt.mp hs)
      have e : ((2 ^ 53 : Nat) : ℚ) = (2 : ℚ) ^ (53 : Int) := by norm_num
      rw [e] at hq
      push_cast at hq
      exact hq

/-- The value of `ConvertFrequenceToFloat` for a non-negative mantissa and
exponent: the product itself while it stays below `2^53`, and otherwise a
value of at least `2^53` or the positive infinity. -/
theorem ConvertFrequenceToFloat_nat (m e : Nat) :
    (m * 10 ^ e < 2 ^ 53 →
        ConvertFrequenceToFloat ⟨(m : Int), (e : Int)⟩
          = Double.finite (((m * 10 ^ e : Nat) : ℚ))) ∧
      (2 ^ 53 ≤ m * 10 ^ e →
        (ConvertFrequenceToFloat ⟨(m : Int), (e : Int)⟩).atLeast ((2 : ℚ) ^ (53 : Int))) := by
  have hpos : 0 < 10 ^ e := by positivity
  have hmle : m ≤ m * 10 ^ e := Nat.le_mul_of_pos_right m hpos
  unfold ConvertFrequenceToFloat
  simp only [Int.toNat_natCast, Int.cast_natCast]
  constructor
  · intro h
    have hm : binary64 (m : ℚ) = Double.finite (((m : Int) : ℚ)) := by
      have := binary64_exact_int (m : Int) (by
        rw [abs_of_nonneg (by positivity)]
        exact_mod_cast (lt_of_le_of_lt hmle h))
      rw [Int.cast_natCast] at this ⊢
      exact this
    rw [hm, ConvertFrequenceToFloat_loop_exact e (m : Int) (by
      rw [abs_of_nonneg (by positivity)]
      exact_mod_cast h)]
    congr 1
    push_cast
    rfl
  · intro h
    by_cases hm : m < 2 ^ 53
    · have hb : binary64 (m : ℚ) = Double.finite (m : ℚ) := by
        have := binary64_exact_int (m : Int) (by
          rw [abs_of_nonneg (by positivity)]
          exact_mod_cast hm)
        rw [Int.cast_natCast] at this
        exact this
      rw [hb]
      exact ConvertFrequenceToFloat_loop_large e m hm h
    · apply ConvertFrequenceToFloat_loop_atLeast
      apply binary64_atLeast_pow _ 53 (by decide)
      have hq : ((2 ^ 53 : Nat) : ℚ) ≤ (m : ℚ) := by exact_mod_cast (not_lt.mp hm)
      have e2 : ((2 ^ 53 : Nat) : ℚ) = (2 : ℚ) ^ (53 : Int) := by norm_num
      rw [e2] at hq
      exact hq

theorem Double.le_false_of_atLeast (d : Double) (z c : ℚ) (h : d.atLeast z) (hc : c < z) :
    ¬ (d.le c = true) := by
  cases d with
  | finite p =>
    simp only [Double.atLeast] at h
    simp only [Double.le, decide_eq_true_eq, not_le]
    exact lt_of_lt_of_le hc h
  | infinite negative =>
    simp only [Double.atLeast] at h
    simp [Double.le, h]

theorem Double.div_atLeast_of_large (d : Double) (h : d.atLeast ((2 : ℚ) ^ (53 : Int))) :
    (d.div 1000000).atLeast ((2 : ℚ) ^ (33 : Int)) := by
  cases d with
  | finite p =>
    simp only [Double.atLeast] at h
    simp only [Double.div]
    apply binary64_atLeast_pow _ 33 (by decide)
    rw [le_div_iff₀ (by norm_num)]
    have e : (2 : ℚ) ^ (33 : Int) * 1000000 ≤ (2 : ℚ) ^ (53 : Int) := by norm_num
    exact le_trans e h
  | infinite negative => exact h

theorem dyadic_below_succ (n : Int) :
    (((2 ^ 20 * (n + 1) - 1 : Int)) : ℚ) * (2 : ℚ) ^ (-20 : Int)
      = (n : ℚ) + 1 - 1 / 1048576 := by
  push_cast
  norm_num
  ring

theorem ulpExp_le_of_lt_65536 (F : ℚ) (h0 : 0 < F) (hF : F < 65536) : ulpExp F ≤ -37 := by
  have h := ulpExp_le F 15 (by decide) (ne_of_gt h0) (by
    rw [abs_of_pos h0]
    have e : (2 : ℚ) ^ ((15 : Int) + 1) = 65536 := by norm_num
    rw [e]
    exact hF)
  omega

/-- The binary64 quotient `P / 1000000` for a natural `P` with exact quotient at
most 65535: it is finite, at most 65535, and its integer part is the integer
part of the exact quotient. -/
theorem binary64_quotient_in_range (P : Nat) (hF : (P : ℚ) / 1000000 ≤ 65535) :
    ∃ r : ℚ, binary64 ((P : ℚ) / 1000000) = Double.finite r ∧
      ((P / 1000000 : Nat) : ℚ) ≤ r ∧ r < ((P / 1000000 : Nat) : ℚ) + 1 ∧ r ≤ 65535 := by
  have hn1 : ((P / 1000000 : Nat) : ℚ) ≤ (P : ℚ) / 1000000 := by
    rw [le_div_iff₀ (by norm_num)]
    have := Nat.div_mul_le_self P 1000000
    exact_mod_cast this
  have hn2 : (P : ℚ) / 1000000 ≤ ((P / 1000000 : Nat) : ℚ) + 1 - 1 / 1000000 := by
    rw [div_le_iff₀ (by norm_num)]
    have h1 : P < (P / 1000000 + 1) * 1000000 := by
      have := Nat.div_add_mod P 1000000
      have := Nat.mod_lt P (by norm_num : 1000000 > 0)
      omega
    have h2 : P + 1 ≤ (P / 1000000 + 1) * 1000000 := h1
    have h3 : ((P + 1 : Nat) : ℚ) ≤ (((P / 1000000 + 1) * 1000000 : Nat) : ℚ) := by
      exact_mod_cast h2
    push_cast at h3
    linarith
  by_cases h0 : (P : ℚ) / 1000000 = 0
  · have hb : binary64 ((P : ℚ) / 1000000) = Double.finite 0 := by
      rw [h0]
      have := binary64_exact_int 0 (by decide)
      simpa using this
    refine ⟨0, hb, ?_, ?_, by norm_num⟩
    · rw [h0] at hn1
      exact hn1
    · have : (0 : ℚ) ≤ ((P / 1000000 : Nat) : ℚ) := by positivity
      linarith
  · have hpos : 0 < (P : ℚ) / 1000000 := lt_of_le_of_ne (by positivity) (Ne.symm h0)
    have hE := ulpExp_le_of_lt_65536 _ hpos (by linarith)
    have habs : |(P : ℚ) / 1000000| = (P : ℚ) / 1000000 := abs_of_pos hpos
    obtain ⟨a, ha⟩ := dyadic_multiple ((P / 1000000 : Nat) : Int) 0
      (ulpExp ((P : ℚ) / 1000000)) (by omega)
    obtain ⟨b, hb⟩ := dyadic_multiple 65535 0 (ulpExp ((P : ℚ) / 1000000)) (by omega)
    obtain ⟨c, hc⟩ := dyadic_multiple (2 ^ 20 * (((P / 1000000 : Nat) : Int) + 1) - 1) (-20)
      (ulpExp ((P : ℚ) / 1000000)) (by omega)
    rw [zpow_zero, mul_one] at ha hb
    have hlo := roundedMagnitude_lower ((P : ℚ) / 1000000) a (by
      rw [habs]
      change (a : ℚ) * (2 : ℚ) ^ ulpExp ((P : ℚ) / 1000000) ≤ _
      rw [← ha]
      exact_mod_cast hn1)
    have hup1 := roundedMagnitude_upper ((P : ℚ) / 1000000) b (by
      rw [habs]
      change _ ≤ (b : ℚ) * (2 : ℚ) ^ ulpExp ((P : ℚ) / 1000000)
      rw [← hb]
      exact_mod_cast hF)
    have hup2 := roundedMagnitude_upper ((P : ℚ) / 1000000) c (by
      rw [habs]
      change _ ≤ (c : ℚ) * (2 : ℚ) ^ ulpExp ((P : ℚ) / 1000000)
      rw [← hc, dyadic_below_succ, Int.cast_natCast]
      linarith)
    change _ ≤ (b : ℚ) * (2 : ℚ) ^ ulpExp ((P : ℚ) / 1000000) at hup1
    change _ ≤ (c : ℚ) * (2 : ℚ) ^ ulpExp ((P : ℚ) / 1000000) at hup2
    change (a : ℚ) * (2 : ℚ) ^ ulpExp ((P : ℚ) / 1000000) ≤ _ at hlo
    rw [← hb] at hup1
    rw [← hc] at hup2
    rw [← ha] at hlo
    rw [dyadic_below_succ, Int.cast_natCast] at hup2
    have hup1q : roundedMagnitude ((P : ℚ) / 1000000) ≤ 65535 := by exact_mod_cast hup1
    have hloq : ((P / 1000000 : Nat) : ℚ) ≤ roundedMagnitude ((P : ℚ) / 1000000) := by
      exact_mod_cast hlo
    refine ⟨roundedMagnitude ((P : ℚ) / 1000000), ?_, hloq, by linarith, hup1q⟩
    unfold binary64
    have hov : ¬ ((2 : ℚ) ^ (1024 : Nat) ≤ roundedMagnitude ((P : ℚ) / 1000000)) := by
      have : (65535 : ℚ) < (2 : ℚ) ^ (1024 : Nat) := by norm_num
      exact not_le.mpr (lt_of_le_of_lt hup1q this)
    rw [if_neg hov, if_neg (not_lt.mpr (le_of_lt hpos))]

/-- The binary64 quotient `P / 1000000` for a natural `P` with exact quotient
above 65535: it is above 65535 as well. -/
theorem binary64_quotient_over_range (P : Nat) (hF : 65535 < (P : ℚ) / 1000000) :
    ¬ ((binary64 ((P : ℚ) / 1000000)).le 65535 = true) := by
  have hpos : 0 < (P : ℚ) / 1000000 := lt_trans (by norm_num) hF
  by_cases hbig : (65536 : ℚ) ≤ (P : ℚ) / 1000000
  · have h := binary64_atLeast_pow ((P : ℚ) / 1000000) 16 (by decide) (by
      have e : (2 : ℚ) ^ (16 : Int) = 65536 := by norm_num
      rw [e]
      exact hbig)
    exact Double.le_false_of_atLeast _ _ _ h (by norm_num)
  · have hlt : (P : ℚ) / 1000000 < 65536 := not_le.mp hbig
    have hE := ulpExp_le_of_lt_65536 _ hpos hlt
    have habs : |(P : ℚ) / 1000000| = (P : ℚ) / 1000000 := abs_of_pos hpos
    have hP : 65535 * 1000000 + 1 ≤ P := by
      have h1 : (65535 : ℚ) * 1000000 < (P : ℚ) := (lt_div_iff₀ (by norm_num)).mp hF
      have h2 : (65535000000 : ℚ) < (P : ℚ) := by linarith
      have h3 : 65535000000 < P := by exact_mod_cast h2
      omega
    have hz : (65535 : ℚ) + 1 / 1048576 ≤ (P : ℚ) / 1000000 := by
      rw [le_div_iff₀ (by norm_num)]
      have h4 : ((65535 * 1000000 + 1 : Nat) : ℚ) ≤ (P : ℚ) := by exact_mod_cast hP
      push_cast at h4
      linarith
    obtain ⟨c, hc⟩ := dyadic_multiple (65535 * 2 ^ 20 + 1) (-20)
      (ulpExp ((P : ℚ) / 1000000)) (by omega)
    have e : (((65535 * 2 ^ 20 + 1 : Int)) : ℚ) * (2 : ℚ) ^ (-20 : Int)
        = (65535 : ℚ) + 1 / 1048576 := by
      norm_num
    rw [e] at hc
    have hlo := roundedMagnitude_lower ((P : ℚ) / 1000000) c (by
      rw [habs]
      change (c : ℚ) * (2 : ℚ) ^ ulpExp ((P : ℚ) / 1000000) ≤ _
      rw [← hc]
      exact hz)
    change (c : ℚ) * (2 : ℚ) ^ ulpExp ((P : ℚ) / 1000000) ≤ _ at hlo
    rw [← hc] at hlo
    have hat : (binary64 ((P : ℚ) / 1000000)).atLeast ((65535 : ℚ) + 1 / 1048576) := by
      unfold binary64
      have hn : ¬ (P : ℚ) / 1000000 < 0 := not_lt.mpr (le_of_lt hpos)
      by_cases hov : (2 : ℚ) ^ (1024 : Nat) ≤ roundedMagnitude ((P : ℚ) / 1000000)
      · rw [if_pos hov]
        simp [Double.atLeast, hn]
      · rw [if_neg hov, if_neg hn]
        exact hlo
    exact Double.le_false_of_atLeast _ _ _ hat (by norm_num)

/-! ### GetWiFiChannelNumber -/

theorem floor_MHz (m e : Nat) :
    ⌊(m : ℚ) * 10 ^ e / 1000000⌋ = ((m * 10 ^ e / 1000000 : Nat) : Int) := by
  have h : (m : ℚ) * 10 ^ e / 1000000 = ((m * 10 ^ e : Nat) : ℚ) / ((1000000 : Nat) : ℚ) := by
    push_cast
    ring
  rw [h, Rat.floor_natCast_div_natCast]
  rfl

theorem UINT16_MAX_cast : ((UINT16_MAX : Int) : ℚ) = 65535 := by
  unfold UINT16_MAX
  norm_num

theorem GetWiFiChannelNumber_overflow (socketRet ioctlRet : Int) (m e : Nat)
    (channelNumber : Nat) (hs : 0 ≤ socketRet) (hi : 0 ≤ ioctlRet)
    (hF : (65535 : ℚ) < (m : ℚ) * 10 ^ e / 1000000) :
    GetWiFiChannelNumber socketRet ioctlRet ⟨(m : Int), (e : Int)⟩ channelNumber
      = ⟨CHIP_ERROR_INVALID_INTEGER_VALUE, channelNumber,
          [SysCall.socket socketRet, SysCall.ioctl Request.SIOCGIWFREQ ioctlRet]⟩ := by
  have hsk : ¬ socketRet < 0 := not_lt.mpr hs
  have hio : ¬ ioctlRet < 0 := not_lt.mpr hi
  have hle : ¬ (((ConvertFrequenceToFloat ⟨(m : Int), (e : Int)⟩).div 1000000).le 65535
      = true) := by
    by_cases hP : m * 10 ^ e < 2 ^ 53
    · rw [(ConvertFrequenceToFloat_nat m e).1 hP]
      simp only [Double.div]
      apply binary64_quotient_over_range
      push_cast
      exact hF
    · exact Double.le_false_of_atLeast _ ((2 : ℚ) ^ (33 : Int)) 65535
        (Double.div_atLeast_of_large _ ((ConvertFrequenceToFloat_nat m e).2 (not_lt.mp hP)))
        (by norm_num)
  simp only [GetWiFiChannelNumber, GetWiFiParameter, if_neg hsk, if_neg hio, UINT16_MAX_cast,
    hle, Bool.false_eq_true, not_false_eq_true, if_true]

theorem GetWiFiChannelNumber_in_range (socketRet ioctlRet : Int) (m e : Nat)
    (channelNumber : Nat) (hs : 0 ≤ socketRet) (hi : 0 ≤ ioctlRet)
    (hF : (m : ℚ) * 10 ^ e / 1000000 ≤ 65535) :
    GetWiFiChannelNumber socketRet ioctlRet ⟨(m : Int), (e : Int)⟩ channelNumber
      = ⟨CHIP_NO_ERROR, MapFrequencyToChannel (m * 10 ^ e / 1000000),
          [SysCall.socket socketRet, SysCall.ioctl Request.SIOCGIWFREQ ioctlRet]
            ++ [SysCall.close socketRet]⟩ := by
  have hsk : ¬ socketRet < 0 := not_lt.mpr hs
  have hio : ¬ ioctlRet < 0 := not_lt.mpr hi
  have hFq : ((m * 10 ^ e : Nat) : ℚ) / 1000000 ≤ 65535 := by
    push_cast
    exact hF
  have hP : m * 10 ^ e < 2 ^ 53 := by
    have h1 : ((m * 10 ^ e : Nat) : ℚ) ≤ (65535000000 : ℚ) := by
      have := (div_le_iff₀ (by norm_num : (0 : ℚ) < 1000000)).mp hFq
      linarith
    have h2 : m * 10 ^ e ≤ 65535000000 := by exact_mod_cast h1
    have h3 : (65535000000 : Nat) < 2 ^ 53 := by norm_num
    exact lt_of_le_of_lt h2 h3
  obtain ⟨r, hb, h1, h2, h3⟩ := binary64_quotient_in_range (m * 10 ^ e) hFq
  have hq : (ConvertFrequenceToFloat ⟨(m : Int), (e : Int)⟩).div 1000000 = Double.finite r := by
    rw [(ConvertFrequenceToFloat_nat m e).1 hP]
    simp only [Double.div]
    exact hb
  have hle : (Double.finite r).le 65535 = true := by
    simp only [Double.le, decide_eq_true_eq]
    exact h3
  have h0 : (0 : ℚ) ≤ r := le_trans (by positivity) h1
  have hfl : ⌊r⌋ = ((m * 10 ^ e / 1000000 : Nat) : Int) := by
    rw [Int.floor_eq_iff]
    constructor
    · exact_mod_cast h1
    · exact_mod_cast h2
  have hn : m * 10 ^ e / 1000000 ≤ 65535 := by
    have : ((m * 10 ^ e / 1000000 : Nat) : ℚ) ≤ ((65535 : Nat) : ℚ) := by
      push_cast
      exact le_trans h1 h3
    exact_mod_cast this
  have hcast : (Double.finite r).toUInt16 = m * 10 ^ e / 1000000 := by
    simp only [Double.toUInt16, truncate, if_pos h0, hfl, static_cast_uint16]
    omega
  simp only [GetWiFiChannelNumber, GetWiFiParameter, if_neg hsk, if_neg hio, UINT16_MAX_cast,
    hq, hle, not_true_eq_false, if_false, if_true, hcast]

/-- C13: `GetWiFiChannelNumber` on a successful frequency reply with mantissa
`m ≥ 0` and exponent `e ≥ 0`.  With `F = m * 10^e / 1000000` in exact
arithmetic: if `F > 65535` the call fails with `CHIP_ERROR_INVALID_INTEGER_VALUE`
and `channelNumber` keeps its value; otherwise it succeeds and `channelNumber`
is `MapFrequencyToChannel` of the integer part of `F`. -/
theorem C13_GetWiFiChannelNumber (socketRet ioctlRet : Int) (m e : Nat) (channelNumber : Nat)
    (hs : 0 ≤ socketRet) (hi : 0 ≤ ioctlRet) :
    ((65535 : ℚ) < (m : ℚ) * 10 ^ e / 1000000 →
        (GetWiFiChannelNumber socketRet ioctlRet ⟨(m : Int), (e : Int)⟩ channelNumber).err
          = CHIP_ERROR_INVALID_INTEGER_VALUE ∧
        (GetWiFiChannelNumber socketRet ioctlRet ⟨(m : Int), (e : Int)⟩ channelNumber).out
          = channelNumber) ∧
      ((m : ℚ) * 10 ^ e / 1000000 ≤ 65535 →
        (GetWiFiChannelNumber socketRet ioctlRet ⟨(m : Int), (e : Int)⟩ channelNumber).err
          = CHIP_NO_ERROR ∧
        (GetWiFiChannelNumber socketRet ioctlRet ⟨(m : Int), (e : Int)⟩ channelNumber).out
          = MapFrequencyToChannel (⌊(m : ℚ) * 10 ^ e / 1000000⌋).toNat ∧
        (⌊(m : ℚ) * 10 ^ e / 1000000⌋).toNat = m * 10 ^ e / 1000000) := by
  constructor
  · intro hF
    rw [GetWiFiChannelNumber_overflow socketRet ioctlRet m e channelNumber hs hi hF]
    exact ⟨rfl, rfl⟩
  · intro hF
    have htn : (⌊(m : ℚ) * 10 ^ e / 1000000⌋).toNat = m * 10 ^ e / 1000000 := by
      rw [floor_MHz, Int.toNat_natCast]
    rw [GetWiFiChannelNumber_in_range socketRet ioctlRet m e channelNumber hs hi hF, htn]
    exact ⟨rfl, rfl, rfl⟩

/-- C13 witnesses: mantissa 2437 with exponent 6 gives channel 6, mantissa 5180 with
exponent 6 gives channel 36, mantissa 70000 with exponent 6 fails with
`CHIP_ERROR_INVALID_INTEGER_VALUE`. -/
theorem C13_GetWiFiChannelNumber_witness :
    (GetWiFiChannelNumber 3 0 ⟨2437, 6⟩ 0).err = CHIP_NO_ERROR ∧
      (GetWiFiChannelNumber 3 0 ⟨2437, 6⟩ 0).out = 6 ∧
      (GetWiFiChannelNumber 3 0 ⟨5180, 6⟩ 0).out = 36 ∧
      (GetWiFiChannelNumber 3 0 ⟨70000, 6⟩ 0).err = CHIP_ERROR_INVALID_INTEGER_VALUE := by
  have h1 := (C13_GetWiFiChannelNumber 3 0 2437 6 0 (by decide) (by decide)).2 (by norm_num)
  have h2 := (C13_GetWiFiChannelNumber 3 0 5180 6 0 (by decide) (by decide)).2 (by norm_num)
  have h3 := (C13_GetWiFiChannelNumber 3 0 70000 6 0 (by decide) (by decide)).1 (by norm_num)
  refine ⟨h1.1, ?_, ?_, h3.1⟩
  · have e := h1.2.1
    rw [h1.2.2] at e
    exact e.trans (by decide)
  · have e := h2.2.1
    rw [h2.2.2] at e
    exact e.trans (by decide)

/-! ### ConvertFrequenceToFloat -/

theorem ConvertFrequenceToFloat_loop_add (n k : Nat) (d : Double) :
    ConvertFrequenceToFloat.loop (n + k) d
      = ConvertFrequenceToFloat.loop k (ConvertFrequenceToFloat.loop n d) := by
  induction n generalizing d with
  | zero => simp [ConvertFrequenceToFloat.loop]
  | succ n ih =>
    have e : n + 1 + k = (n + k) + 1 := by omega
    rw [e, ConvertFrequenceToFloat.loop, ConvertFrequenceToFloat.loop, ih]

theorem binary64_pow10_exact (i : Nat) (hi : i ≤ 22) :
    binary64 ((10 : ℚ) ^ i) = Double.finite ((10 : ℚ) ^ i) := by
  have e : (10 : ℚ) ^ i = (((5 ^ i : Nat) : Int) : ℚ) * (2 : ℚ) ^ ((i : Nat) : Int) := by
    rw [zpow_natCast]
    push_cast
    rw [← mul_pow]
    norm_num
  have h5 : 5 ^ i ≤ 5 ^ 22 := Nat.pow_le_pow_right (by norm_num) hi
  have h10 : (10 : ℚ) ^ i ≤ (10 : ℚ) ^ 22 := pow_le_pow_right₀ (by norm_num) hi
  have h := binary64_exact_dyadic ((5 ^ i : Nat) : Int) (i : Int)
    (by
      rw [abs_of_nonneg (by positivity)]
      have : 5 ^ i < 2 ^ 53 := lt_of_le_of_lt h5 (by norm_num)
      exact_mod_cast this)
    (by omega)
    (by
      rw [← e, abs_of_nonneg (by positivity)]
      exact lt_of_le_of_lt h10 (by norm_num))
  rw [← e] at h
  exact h

theorem ConvertFrequenceToFloat_loop_pow10 (n i : Nat) (h : i + n ≤ 22) :
    ConvertFrequenceToFloat.loop n (Double.finite ((10 : ℚ) ^ i))
      = Double.finite ((10 : ℚ) ^ (i + n)) := by
  induction n generalizing i with
  | zero => rfl
  | succ n ih =>
    rw [ConvertFrequenceToFloat.loop]
    simp only [Double.mul]
    rw [← pow_succ, binary64_pow10_exact (i + 1) (by omega), ih (i + 1) (by omega)]
    congr 2
    omega

theorem roundHalfEven_tie_example :
    roundHalfEven ((11920928955078125 : ℚ) / 2) = 5960464477539062 := by
  have hf : ⌊((11920928955078125 : ℚ) / 2)⌋ = 5960464477539062 := by
    rw [Int.floor_eq_iff]
    constructor <;> norm_num
  unfold roundHalfEven
  rw [hf]
  norm_num

theorem binary64_ten_pow_23 :
    binary64 ((10 : ℚ) ^ 22 * 10) = Double.finite 99999999999999991611392 := by
  have hx : (10 : ℚ) ^ 22 * 10 = ((10 ^ 23 : Nat) : ℚ) := by norm_num
  have hlog : Int.log 2 |(10 : ℚ) ^ 22 * 10| = 76 := by
    rw [abs_of_nonneg (by positivity), hx, Int.log_natCast]
    have : Nat.log 2 (10 ^ 23) = 76 := by
      rw [Nat.log_eq_iff (by norm_num)]
      constructor <;> norm_num
    rw [this]
    rfl
  have hu : ulp ((10 : ℚ) ^ 22 * 10) = 16777216 := by
    unfold ulp ulpExp
    rw [hlog]
    norm_num
  have hr : roundedMagnitude ((10 : ℚ) ^ 22 * 10) = 99999999999999991611392 := by
    unfold roundedMagnitude
    rw [hu, abs_of_nonneg (by positivity)]
    have hq : (10 : ℚ) ^ 22 * 10 / 16777216 = (11920928955078125 : ℚ) / 2 := by norm_num
    rw [hq, roundHalfEven_tie_example]
    norm_num
  unfold binary64
  rw [hr]
  norm_num

theorem ConvertFrequenceToFloat_one_23 :
    ConvertFrequenceToFloat ⟨1, 23⟩ = Double.finite 99999999999999991611392 := by
  have h23 : (23 : Int).toNat = 22 + 1 := by decide
  have h1 : binary64 (((1 : Int) : ℚ)) = Double.finite ((10 : ℚ) ^ 0) := by
    rw [binary64_exact_int 1 (by decide)]
    norm_num
  unfold ConvertFrequenceToFloat
  simp only [h23]
  rw [h1, ConvertFrequenceToFloat_loop_add, ConvertFrequenceToFloat_loop_pow10 22 0 (by omega)]
  simp only [ConvertFrequenceToFloat.loop, Double.mul, Nat.zero_add]
  exact binary64_ten_pow_23

/-- C19 (as the claim states it, refuted): for mantissa 24370 and exponent -1 the
function returns 24370, not `24370 × 10^(-1) = 2437`; and for mantissa 1 and
exponent 23 the rounded multiplications return 99999999999999991611392, not
`10^23`. -/
theorem C19_counterexample :
    ConvertFrequenceToFloat ⟨24370, -1⟩ = Double.finite 24370 ∧
      (24370 : ℚ) * (10 : ℚ) ^ (-1 : Int) = 2437 ∧
      ConvertFrequenceToFloat ⟨24370, -1⟩
        ≠ Double.finite ((24370 : ℚ) * (10 : ℚ) ^ (-1 : Int)) ∧
      ConvertFrequenceToFloat ⟨1, 23⟩ = Double.finite 99999999999999991611392 ∧
      ConvertFrequenceToFloat ⟨1, 23⟩ ≠ Double.finite ((1 : ℚ) * (10 : ℚ) ^ (23 : Int)) := by
  have h : ConvertFrequenceToFloat ⟨24370, -1⟩ = Double.finite 24370 := by
    have h0 : (-1 : Int).toNat = 0 := by decide
    unfold ConvertFrequenceToFloat
    simp only [h0, ConvertFrequenceToFloat.loop]
    rw [binary64_exact_int 24370 (by decide)]
    norm_num
  have hv : (24370 : ℚ) * (10 : ℚ) ^ (-1 : Int) = 2437 := by norm_num
  refine ⟨h, hv, ?_, ConvertFrequenceToFloat_one_23, ?_⟩
  · rw [h, hv]
    intro hc
    have := Double.finite.inj hc
    norm_num at this
  · rw [ConvertFrequenceToFloat_one_23]
    intro hc
    have := Double.finite.inj hc
    norm_num at this

/-- C19 (amended): for every signed 32-bit mantissa `m`, a negative exponent
leaves the loop without a pass and the function returns the mantissa itself;
for an exponent `e ≥ 0` with `|m| × 10^e < 2^53` every product of the loop is
exact in binary64 and the function returns `m × 10^e`. -/
theorem C19_ConvertFrequenceToFloat (m e : Int)
    (hm : -2147483648 ≤ m ∧ m ≤ 2147483647) :
    (e < 0 → ConvertFrequenceToFloat ⟨m, e⟩ = Double.finite (m : ℚ)) ∧
      (0 ≤ e → |m| * 10 ^ e.toNat < 2 ^ 53 →
        ConvertFrequenceToFloat ⟨m, e⟩ = Double.finite ((m : ℚ) * (10 : ℚ) ^ e)) := by
  have hb : binary64 (m : ℚ) = Double.finite (m : ℚ) :=
    binary64_exact_int m (abs_lt.mpr ⟨by omega, by omega⟩)
  constructor
  · intro he
    have h0 : e.toNat = 0 := Int.toNat_eq_zero.mpr (le_of_lt he)
    unfold ConvertFrequenceToFloat
    simp only [h0, ConvertFrequenceToFloat.loop]
    exact hb
  · intro he hP
    obtain ⟨n, rfl⟩ := Int.eq_ofNat_of_zero_le he
    simp only [Int.toNat_natCast] at hP
    unfold ConvertFrequenceToFloat
    simp only [Int.toNat_natCast]
    rw [hb, ConvertFrequenceToFloat_loop_exact n m hP, zpow_natCast]

/-- C19 witness: mantissa 2437 with exponent 6 gives `2437 × 10^6`; mantissa 24370
with exponent -1 gives 24370. -/
theorem C19_ConvertFrequenceToFloat_witness :
    ConvertFrequenceToFloat ⟨2437, 6⟩
        = Double.finite (((2437 : Int) : ℚ) * (10 : ℚ) ^ (6 : Int)) ∧
      ConvertFrequenceToFloat ⟨24370, -1⟩ = Double.finite ((24370 : Int) : ℚ) :=
  ⟨(C19_ConvertFrequenceToFloat 2437 6 (by decide)).2 (by decide) (by decide),
    (C19_ConvertFrequenceToFloat 24370 (-1) (by decide)).1 (by decide)⟩

/-! ### Socket release -/

/-- C16 (evaluation at the failing inputs): starting with no descriptor open, the
`CHIP_ERROR_BUFFER_TOO_SMALL` exit of `GetInterfaceHardwareAddrs` and the
`CHIP_ERROR_INVALID_INTEGER_VALUE` exits of `GetWiFiChannelNumber` and
`GetWiFiRssi` each leave one descriptor open: the socket was opened and the
call returned without closing it. -/
theorem C16_early_exits_leave_socket_open :
    (GetInterfaceHardwareAddrs ['w', 'l', 'a', 'n', '0'] 3 0 (fun i => 16 + i)
        (fun _ => 255) 4).err = CHIP_ERROR_BUFFER_TOO_SMALL ∧
      openAfter 0 (GetInterfaceHardwareAddrs ['w', 'l', 'a', 'n', '0'] 3 0 (fun i => 16 + i)
        (fun _ => 255) 4).trace = 1 ∧
      (GetWiFiChannelNumber 3 0 ⟨70000, 6⟩ 0).err = CHIP_ERROR_INVALID_INTEGER_VALUE ∧
      openAfter 0 (GetWiFiChannelNumber 3 0 ⟨70000, 6⟩ 0).trace = 1 ∧
      (GetWiFiRssi 3 0 ⟨⟨0, 200, 0, 0x00⟩, 0⟩ 0).err = CHIP_ERROR_INVALID_INTEGER_VALUE ∧
      openAfter 0 (GetWiFiRssi 3 0 ⟨⟨0, 200, 0, 0x00⟩, 0⟩ 0).trace = 1 := by
  have hc : GetWiFiChannelNumber 3 0 ⟨70000, 6⟩ 0
      = ⟨CHIP_ERROR_INVALID_INTEGER_VALUE, 0,
          [SysCall.socket 3, SysCall.ioctl Request.SIOCGIWFREQ 0]⟩ :=
    GetWiFiChannelNumber_overflow 3 0 70000 6 0 (by decide) (by decide) (by norm_num)
  rw [hc]
  decide

end ConnectivityUtils
